import Mathlib

/-!
# A stdin/stdout to TCP relay on libuv: shallow embedding of `main.c`

The program is a set of libuv callbacks over process-wide state.  The embedding
keeps that shape: one `World` record holds the globals of `main.c`, the C heap,
the two stdio streams and the part of the libuv loop that the callbacks can
observe.  Every C function of `main.c` is a `Proc` (a state transformer that can
stop the process).  libuv and libc are not part of `main.c`; what they return is
either supplied by the caller of a definition (return codes, allocation
success, the order of completions) or follows the documented behaviour of the
library, and each such definition says so.
-/

namespace Relay

/-! ## Constants -/

/-- The host the program resolves, `#define IP "localhost"`. -/
def IP : String := "localhost"

/-- The service the program resolves, `#define PORT "12345"`. -/
def PORT : String := "12345"

/-- The scratch buffer capacity, `#define BUFFER_LEN 4096`. -/
def BUFFER_LEN : Nat := 4096

/-- The end-of-stream code of libuv (`UV__EOF` in `uv/errno.h`). -/
def UV_EOF : Int := -4095

/-- The code libuv hands to the callbacks of requests it cancels
(`UV__ECANCELED`, the negated `ECANCELED` of Linux). -/
def UV_ECANCELED : Int := -125

/-- The code `uv_loop_close` returns while handles or requests are still
registered (`UV__EBUSY`, the negated `EBUSY`). -/
def UV_EBUSY : Int := -16

/-! ## The C heap -/

/-- What an allocation holds: raw bytes (`malloc(nread)`, the scratch buffers) or
a `uv_write_t`, of which the program only touches the `data` field. -/
inductive Block where
  | bytes (bs : List UInt8)
  | write_req (data : Nat)
  deriving DecidableEq, Repr

/-- The heap: one cell per allocation ever made (`none` once freed), and the log
of the pointers passed to `free`. A pointer is a natural number: `0` is `NULL`
and `p + 1` is the address of cell `p`, so addresses are never handed out twice. -/
structure Heap where
  cells : List (Option Block)
  frees : List Nat
  deriving DecidableEq, Repr

/-- The live block a pointer refers to, if any. -/
def Heap.read (h : Heap) : Nat → Option Block
  | 0 => none
  | p + 1 => (h.cells[p]?).join

/-- A new allocation holding `b`; returns its address. -/
def Heap.alloc (h : Heap) (b : Block) : Nat × Heap :=
  (h.cells.length + 1, { h with cells := h.cells ++ [some b] })

/-- Overwrite the block at `p`. -/
def Heap.write (h : Heap) : Nat → Block → Heap
  | 0, _ => h
  | p + 1, b => { h with cells := h.cells.set p (some b) }

/-- Release the block at `p` and log the call. -/
def Heap.release (h : Heap) : Nat → Heap
  | 0 => h
  | p + 1 => { cells := h.cells.set p none, frees := h.frees ++ [p + 1] }

/-- The bytes stored at `p` (empty when `p` is not a live byte block). -/
def Heap.bytesAt (h : Heap) (p : Nat) : List UInt8 :=
  match h.read p with
  | some (.bytes bs) => bs
  | _ => []

/-! ## Process and loop state -/

/-- Whether the process is still executing, has called `exit(code)`, or has run
into undefined behaviour (a `NULL` dereference, a `free` of a dead block, a
failed libuv assertion). -/
inductive Status where
  | running
  | exited (code : Int)
  | crashed
  deriving DecidableEq, Repr

/-- The five handles of `main.c`. -/
inductive Handle where
  | sigterm
  | sigint
  | tcp
  | stdin_pipe
  | stdout_pipe
  deriving DecidableEq, Repr

/-- The two write completion callbacks, as function pointers. -/
inductive WriteCb where
  | on_tcp_write
  | on_stdout_write
  deriving DecidableEq, Repr

/-- The pair `uv_buf_t` of libuv. -/
structure uv_buf_t where
  base : Nat
  len : Nat
  deriving DecidableEq, Repr

/-- The constructor `uv_buf_init` of libuv. -/
def uv_buf_init (base : Nat) (len : Nat) : uv_buf_t := { base := base, len := len }

/-- A write request as libuv queues it: the request object, the stream it is
for, the buffer it points at (libuv does not copy the bytes) and the callback. -/
structure PendingWrite where
  req : Nat
  handle : Handle
  buf : uv_buf_t
  cb : WriteCb
  deriving DecidableEq, Repr

/-- The life cycle flags libuv keeps per handle: registered with the loop
(`init`), started (`active`: a started signal watcher, a stream that is being
read or connected), referenced (`ref`), asked to close (`closing`), closed. -/
structure HandleState where
  init : Bool
  active : Bool
  ref : Bool
  closing : Bool
  closed : Bool
  deriving DecidableEq, Repr

/-- The part of `uv_loop_t` the program depends on.  `write_queue` holds the
write requests whose callback has not run yet; `taken` lists those among them
whose bytes the kernel has already accepted (libuv keeps them in the completed
queue of the stream until it runs their callback).  `getaddrinfo_service` is
the service string of the resolution request. -/
structure uv_loop_t where
  stop_flag : Bool
  handles : Handle → HandleState
  closing_queue : List Handle
  write_queue : List PendingWrite
  taken : List Nat
  getaddrinfo_pending : Bool
  getaddrinfo_service : String
  connect_pending : Bool

/-- An IPv4 socket address as it lies in memory: the two port bytes and the
four address bytes, all in network byte order. -/
structure sockaddr_in where
  sin_port : UInt8 × UInt8
  sin_addr : UInt8 × UInt8 × UInt8 × UInt8
  deriving DecidableEq, Repr

/-- One line written to the error stream. -/
inductive Diag where
  | uv_error (code : Int)
  | memory_error (func : String) (line : Nat)
  deriving DecidableEq, Repr

/-- The globals of `main.c` together with the process state around them. -/
structure World where
  status : Status
  stdout : List String
  stderr : List Diag
  heap : Heap
  loop : uv_loop_t
  addr : sockaddr_in
  connect_req_handle : Option Handle
  read_buffer : uv_buf_t
  write_buffer : uv_buf_t

/-! ## The process monad -/

/-- A C statement sequence: it transforms the world and either yields a value
or stops the process (`none`), in which case nothing after it runs. -/
def Proc (α : Type) : Type := World → Option α × World

/-- Sequencing of `Proc`: the continuation runs only if the process goes on. -/
def Proc.bind {α β : Type} (m : Proc α) (f : α → Proc β) : Proc β :=
  fun w =>
    match m w with
    | (some a, w1) => f a w1
    | (none, w1) => (none, w1)

instance : Monad Proc where
  pure a := fun w => (some a, w)
  bind := Proc.bind

/-- Read the current world. -/
def getWorld : Proc World := fun w => (some w, w)

/-- Update the current world. -/
def modifyWorld (f : World → World) : Proc Unit := fun w => (some (), f w)

/-- The libc call `exit(code)`. -/
def exit {α : Type} (code : Int) : Proc α :=
  fun w => (none, { w with status := .exited code })

/-- Undefined behaviour or an abort. -/
def crash {α : Type} : Proc α :=
  fun w => (none, { w with status := .crashed })

/-- A `fprintf(stderr, ...)` of one diagnostic line. -/
def fprintf_stderr (d : Diag) : Proc Unit :=
  modifyWorld fun w => { w with stderr := w.stderr ++ [d] }

/-- The text of a diagnostic, given the name and description tables of libuv
(`uv_err_name`, `uv_strerror`) and the value of `__FILE__`. -/
def Diag.render (uv_err_name uv_strerror : Int → String) (file : String) : Diag → String
  | .uv_error code => uv_err_name code ++ ": " ++ uv_strerror code ++ "\n"
  | .memory_error func line =>
      file ++ ": " ++ func ++ " (" ++ toString line ++ "): not enough memory: \n"

/-- The macro `check_uv` of `main.c`. -/
def check_uv (status : Int) : Proc Unit := do
  let code := status
  if code < 0 then
    fprintf_stderr (.uv_error code)
    exit code

/-- The macro `memory_error` of `main.c` (it only prints). -/
def memory_error (func : String) (line : Nat) : Proc Unit :=
  fprintf_stderr (.memory_error func line)

/-! ## libc memory functions -/

/-- The call `malloc(size)` for a byte buffer; `ok` says whether the allocator
has memory. The fresh bytes are indeterminate in C and zero here. -/
def malloc (ok : Bool) (size : Nat) : Proc Nat := fun w =>
  if ok then
    let r := w.heap.alloc (.bytes (List.replicate size 0))
    (some r.1, { w with heap := r.2 })
  else (some 0, w)

/-- The call `malloc(sizeof(uv_write_t))`. -/
def malloc_uv_write_t (ok : Bool) : Proc Nat := fun w =>
  if ok then
    let r := w.heap.alloc (.write_req 0)
    (some r.1, { w with heap := r.2 })
  else (some 0, w)

/-- The call `memcpy(dst, src, n)`: both blocks must be live and hold at least
`n` bytes. -/
def memcpy (dst src : Nat) (n : Nat) : Proc Unit := do
  let w ← getWorld
  match w.heap.read dst, w.heap.read src with
  | some (.bytes d), some (.bytes s) =>
      if n ≤ d.length ∧ n ≤ s.length then
        modifyWorld fun w => { w with heap := w.heap.write dst (.bytes (s.take n ++ d.drop n)) }
      else crash
  | _, _ => crash

/-- The assignment `req->data = p`. -/
def set_req_data (req p : Nat) : Proc Unit := do
  let w ← getWorld
  match w.heap.read req with
  | some (.write_req _) =>
      modifyWorld fun w => { w with heap := w.heap.write req (.write_req p) }
  | _ => crash

/-- The read `req->data` of a non-`NULL` request. -/
def get_req_data (req : Nat) : Proc Nat := do
  let w ← getWorld
  match w.heap.read req with
  | some (.write_req d) => pure d
  | _ => crash

/-- The call `free(p)`: nothing for `NULL`, undefined for a dead block. -/
def free (p : Nat) : Proc Unit := do
  if p = 0 then pure ()
  else
    let w ← getWorld
    match w.heap.read p with
    | some _ => modifyWorld fun w => { w with heap := w.heap.release p }
    | none => crash

/-! ## libuv calls made by the callbacks -/

/-- The call `uv_stop(&loop)`. -/
def uv_stop : Proc Unit :=
  modifyWorld fun w => { w with loop := { w.loop with stop_flag := true } }

/-- The call `uv_write(req, handle, &buf, 1, cb)`. The return code `rc` is libuv's;
when it is not an error the request is queued on the stream. A `NULL` stream is
dereferenced by libuv. -/
def uv_write (rc : Int) (req : Nat) (handle : Option Handle) (buf : uv_buf_t) (cb : WriteCb) :
    Proc Int := do
  match handle with
  | none => crash
  | some h =>
      if rc < 0 then pure rc
      else
        modifyWorld fun w => { w with loop := { w.loop with
          write_queue := w.loop.write_queue ++ [{ req := req, handle := h, buf := buf, cb := cb }] } }
        pure rc

/-- What the allocator and `uv_write` answer during one read callback. -/
structure ReadEnv where
  req_ok : Bool
  buf_ok : Bool
  rc_write : Int
  deriving DecidableEq, Repr

/-! ## The callbacks of `main.c` -/

/-- The allocation callback `on_alloc_tcp`: hands out `read_buffer`. -/
def on_alloc_tcp (w : World) : uv_buf_t := w.read_buffer

/-- The allocation callback `on_alloc_stdin`: hands out `write_buffer`. -/
def on_alloc_stdin (w : World) : uv_buf_t := w.write_buffer

/-- The callback `on_stdout_write`. -/
def on_stdout_write (req : Nat) (status : Int) : Proc Unit := do
  check_uv status
  if req ≠ 0 then
    let data ← get_req_data req
    if data ≠ 0 then
      free data
  if req ≠ 0 then
    free req

/-- The callback `on_tcp_read`. -/
def on_tcp_read (e : ReadEnv) (nread : Int) (buf : uv_buf_t) : Proc Unit := do
  if nread > 0 then
    let req ← malloc_uv_write_t e.req_ok
    if req = 0 then
      memory_error "on_tcp_read" 66
    let buffer := uv_buf_init (← malloc e.buf_ok nread.toNat) nread.toNat
    memcpy buffer.base buf.base nread.toNat
    set_req_data req buffer.base
    check_uv (← uv_write e.rc_write req (some .stdout_pipe) buffer .on_stdout_write)
  else if nread < 0 then
    if nread = UV_EOF then
      uv_stop

/-- The callback `on_tcp_write`. -/
def on_tcp_write (req : Nat) (status : Int) : Proc Unit := do
  check_uv status
  if req ≠ 0 then
    let data ← get_req_data req
    if data ≠ 0 then
      free data
  if req ≠ 0 then
    free req

/-- The callback `on_stdin_read`. -/
def on_stdin_read (e : ReadEnv) (nread : Int) (buf : uv_buf_t) : Proc Unit := do
  if nread > 0 then
    let req ← malloc_uv_write_t e.req_ok
    if req = 0 then
      memory_error "on_stdin_read" 93
    let buffer := uv_buf_init (← malloc e.buf_ok nread.toNat) nread.toNat
    memcpy buffer.base buf.base nread.toNat
    set_req_data req buffer.base
    let w ← getWorld
    check_uv (← uv_write e.rc_write req w.connect_req_handle buffer .on_tcp_write)
  else if nread < 0 then
    if nread = UV_EOF then
      uv_stop

/-- The callback `on_signal`. -/
def on_signal (_handle : Handle) (_signum : Int) : Proc Unit :=
  uv_stop

/-! ## Connection set-up -/

/-- The libc function `ntohs` applied to the two port bytes as they lie in
memory (network byte order: high byte first). -/
def ntohs (b : UInt8 × UInt8) : Nat := b.1.toNat * 256 + b.2.toNat

/-- The libc function `htons`: the two bytes of a port in network byte order. -/
def htons (p : Nat) : UInt8 × UInt8 := (UInt8.ofNat (p / 256), UInt8.ofNat p)

/-- The conversion `printf` applies for `%hd`: the `int` argument is converted
to `short`, that is taken modulo `2^16` into `-32768..32767`. -/
def to_short (x : Int) : Int :=
  let r := x % 65536
  if r < 32768 then r else r - 65536

/-- The text `printf` produces for `%hd`. -/
def fmt_hd (x : Int) : String := toString (to_short x)

/-- The libuv function `uv_ip4_name` with a destination of `INET_ADDRSTRLEN`
bytes: dotted decimal, which always fits, so the return code is `0`. -/
def uv_ip4_name (a : sockaddr_in) : Int × String :=
  (0, toString a.sin_addr.1.toNat ++ "." ++ toString a.sin_addr.2.1.toNat ++ "." ++
    toString a.sin_addr.2.2.1.toNat ++ "." ++ toString a.sin_addr.2.2.2.toNat)

/-- A `printf` to the standard output stream. -/
def printf (s : String) : Proc Unit :=
  modifyWorld fun w => { w with stdout := w.stdout ++ [s] }

/-- Update the libuv flags of one handle. -/
def setHandle (h : Handle) (f : HandleState → HandleState) : Proc Unit :=
  modifyWorld fun w => { w with loop := { w.loop with
    handles := fun k => if k = h then f (w.loop.handles k) else w.loop.handles k } }

/-- The call `uv_read_start(stream, alloc_cb, read_cb)` with libuv's return code `rc`.
A `NULL` stream is dereferenced by libuv. -/
def uv_read_start (rc : Int) (stream : Option Handle) : Proc Int := do
  match stream with
  | none => crash
  | some h =>
      if rc < 0 then pure rc
      else
        setHandle h fun s => { s with active := true }
        pure rc

/-- The call `uv_read_stop(stream)` with libuv's return code `rc`. -/
def uv_read_stop (rc : Int) (stream : Option Handle) : Proc Int := do
  match stream with
  | none => crash
  | some h =>
      if rc < 0 then pure rc
      else
        setHandle h fun s => { s with active := false }
        pure rc

/-- What `uv_read_start` answers during `on_connect`. -/
structure ConnectEnv where
  rc_read_start_tcp : Int
  rc_read_start_stdin : Int
  deriving DecidableEq, Repr

/-- The callback `on_connect`. -/
def on_connect (e : ConnectEnv) (status : Int) : Proc Unit := do
  check_uv status
  let w ← getWorld
  let node := uv_ip4_name w.addr
  check_uv node.1
  printf ("Connected to " ++ node.2 ++ " on port " ++ fmt_hd (ntohs w.addr.sin_port) ++ "!\n")
  check_uv (← uv_read_start e.rc_read_start_tcp w.connect_req_handle)
  check_uv (← uv_read_start e.rc_read_start_stdin (some .stdin_pipe))

/-- The call `uv_tcp_connect(&connect_req, &tcp, &addr, on_connect)` with libuv's
return code `rc`: on success the request points at the handle and is pending. -/
def uv_tcp_connect (rc : Int) : Proc Int := do
  if rc < 0 then pure rc
  else
    modifyWorld fun w => { w with
      connect_req_handle := some .tcp
      loop := { w.loop with connect_pending := true } }
    pure rc

/-- The callback `on_getaddrinfo`; `res` is `NULL` when the lookup failed. -/
def on_getaddrinfo (rc_connect : Int) (status : Int) (res : Option sockaddr_in) : Proc Unit := do
  check_uv status
  match res with
  | none => crash
  | some a =>
      modifyWorld fun w => { w with addr := a }
      check_uv (← uv_tcp_connect rc_connect)

/-! ## The event loop -/

/-- The code libuv passes to a read callback when the allocation callback
hands out no buffer (`UV__ENOBUFS`). -/
def UV_ENOBUFS : Int := -105

/-- The handles in the order `main` registers them with the loop. -/
def Handle.all : List Handle := [.sigterm, .sigint, .tcp, .stdin_pipe, .stdout_pipe]

/-- The field `loop.active_handles`: started, referenced handles. -/
def active_handles (w : World) : Nat :=
  (Handle.all.filter fun h => (w.loop.handles h).active && (w.loop.handles h).ref).length

/-- The test `uv__loop_alive` of libuv: active handles, pending requests or
handles waiting for their close callback. -/
def loop_alive (w : World) : Bool :=
  decide (0 < active_handles w) || w.loop.getaddrinfo_pending || w.loop.connect_pending ||
    !w.loop.write_queue.isEmpty || !w.loop.closing_queue.isEmpty

/-- The callback `on_close`. -/
def on_close (_handle : Handle) : Proc Unit := do
  let w ← getWorld
  if active_handles w = 0 then
    uv_stop

/-- The call `uv_close(handle, on_close)`: libuv asserts that the handle is not
already closing, stops it and puts it at the head of the closing list. -/
def uv_close (h : Handle) : Proc Unit := do
  let w ← getWorld
  if (w.loop.handles h).closing || (w.loop.handles h).closed then crash
  else
    setHandle h fun s => { s with closing := true, active := false }
    modifyWorld fun w => { w with loop := { w.loop with closing_queue := h :: w.loop.closing_queue } }

/-- The callback `on_walk`. -/
def on_walk (handle : Handle) : Proc Unit :=
  uv_close handle

/-- The call `uv_walk(&loop, on_walk, NULL)`: every registered handle once. -/
def uv_walk : Proc Unit :=
  Handle.all.forM fun h => do
    let w ← getWorld
    if (w.loop.handles h).init && !(w.loop.handles h).closed then
      on_walk h

/-- Call a write callback through its function pointer. -/
def WriteCb.call : WriteCb → Nat → Int → Proc Unit
  | .on_tcp_write => Relay.on_tcp_write
  | .on_stdout_write => Relay.on_stdout_write

/-- What a read on a stream produced: bytes (none at all when the read would
block), end-of-stream, or a failure, reported as the negative code
`-(errno + 1)`. -/
inductive ReadResult where
  | data (bs : List UInt8)
  | eof
  | error (errno : Nat)
  deriving DecidableEq, Repr

/-- A completion the loop can deliver, with the answers of libuv and of the
allocator to the calls the callback makes.  The resolver answers with the IPv4
address it found for the host (or none); `write_taken` is the kernel accepting
the bytes of a queued write, `write_done` the callback of a write. -/
inductive Event where
  | getaddrinfo_done (status : Int) (res : Option (UInt8 × UInt8 × UInt8 × UInt8)) (rc_connect : Int)
  | connect_done (status : Int) (e : ConnectEnv)
  | stdin_read (r : ReadResult) (e : ReadEnv)
  | tcp_read (r : ReadResult) (e : ReadEnv)
  | write_taken (req : Nat)
  | write_done (req : Nat) (status : Int)
  | signal (h : Handle) (signum : Int)
  deriving DecidableEq, Repr

/-- The port a numeric service string stands for, as `getaddrinfo` reads it. -/
def service_port (service : String) : Nat :=
  service.data.foldl (fun n c => 10 * n + (c.toNat - 48)) 0

/-- The first entry of the list the resolver hands to `on_getaddrinfo`: the
address it found, with the port of the service that was asked for. -/
def addrinfo (service : String) (ip : UInt8 × UInt8 × UInt8 × UInt8) : sockaddr_in :=
  { sin_port := htons (service_port service), sin_addr := ip }

/-- libuv stores the bytes it read at the start of the buffer the allocation
callback handed out. -/
def uv_read_into (buf : uv_buf_t) (bs : List UInt8) : Proc Unit := do
  let w ← getWorld
  match w.heap.read buf.base with
  | some (.bytes old) =>
      if bs.length ≤ old.length then
        modifyWorld fun w => { w with heap := w.heap.write buf.base (.bytes (bs ++ old.drop bs.length)) }
      else crash
  | _ => crash

/-- One read completion on a stream that is reading: libuv asks the allocation
callback for a buffer, fills it and calls the read callback. -/
def deliver_read (h : Handle) (alloc : World → uv_buf_t)
    (cb : ReadEnv → Int → uv_buf_t → Proc Unit) (r : ReadResult) (e : ReadEnv) : Proc Unit := do
  let w ← getWorld
  if (w.loop.handles h).active then
    let buf := alloc w
    if buf.base = 0 ∨ buf.len = 0 then cb e UV_ENOBUFS buf
    else
      match r with
      | .data bs =>
          let got := bs.take buf.len
          uv_read_into buf got
          cb e got.length buf
      | .eof => cb e UV_EOF buf
      | .error errno => cb e (-((errno : Int) + 1)) buf

/-- Remove the request `req` from a write queue. -/
def dequeue (req : Nat) : List PendingWrite → Option (PendingWrite × List PendingWrite)
  | [] => none
  | pw :: rest =>
      if pw.req = req then some (pw, rest)
      else (dequeue req rest).map fun r => (r.1, pw :: r.2)

/-- Deliver one completion to its callback, if libuv has something to deliver
it for. -/
def deliver : Event → Proc Unit
  | .getaddrinfo_done status res rc_connect => do
      let w ← getWorld
      if w.loop.getaddrinfo_pending then
        modifyWorld fun w => { w with loop := { w.loop with getaddrinfo_pending := false } }
        on_getaddrinfo rc_connect status (res.map (addrinfo w.loop.getaddrinfo_service))
  | .connect_done status e => do
      let w ← getWorld
      if w.loop.connect_pending then
        modifyWorld fun w => { w with loop := { w.loop with connect_pending := false } }
        on_connect e status
  | .stdin_read r e => deliver_read .stdin_pipe on_alloc_stdin on_stdin_read r e
  | .tcp_read r e => deliver_read .tcp on_alloc_tcp on_tcp_read r e
  | .write_taken req => do
      let w ← getWorld
      if w.loop.write_queue.any fun pw => pw.req = req then
        modifyWorld fun w => { w with loop := { w.loop with taken := req :: w.loop.taken } }
  | .write_done req status => do
      let w ← getWorld
      match dequeue req w.loop.write_queue with
      | none => pure ()
      | some (pw, rest) =>
          modifyWorld fun w => { w with loop := { w.loop with write_queue := rest } }
          pw.cb.call pw.req status
  | .signal h signum => do
      let w ← getWorld
      if (h = .sigterm ∨ h = .sigint) ∧ (w.loop.handles h).active then
        on_signal h signum

/-- The status libuv hands to the callback of a write when its stream is
closed: `0` if the kernel has accepted the bytes, `UV_ECANCELED` if the
request was still waiting. -/
def close_status (w : World) (pw : PendingWrite) : Int :=
  if pw.req ∈ w.loop.taken then 0 else UV_ECANCELED

/-- The end of `uv_close` for one handle (`uv__finish_close`): the handle is
marked closed, a pending connect is cancelled (`on_connect` gets
`UV_ECANCELED`), the callbacks of the writes of the stream run (see
`close_status`), then the close callback runs. -/
def finish_close (h : Handle) : Proc Unit := do
  setHandle h fun s => { s with closed := true }
  let w ← getWorld
  if h = .tcp ∧ w.loop.connect_pending then
    modifyWorld fun w => { w with loop := { w.loop with connect_pending := false } }
    on_connect { rc_read_start_tcp := 0, rc_read_start_stdin := 0 } UV_ECANCELED
  let w ← getWorld
  modifyWorld fun w => { w with loop := { w.loop with
    write_queue := w.loop.write_queue.filter fun pw => pw.handle ≠ h } }
  (w.loop.write_queue.filter fun pw => pw.handle = h).forM fun pw =>
    pw.cb.call pw.req (close_status w pw)
  on_close h

/-- The closing phase of a loop iteration (`uv__run_closing_handles`). -/
def run_closing_handles : Proc Unit := do
  let w ← getWorld
  modifyWorld fun w => { w with loop := { w.loop with closing_queue := [] } }
  w.loop.closing_queue.forM finish_close

/-- A process that sits in `uv_run` with nothing left to arrive: it neither
returns nor stops, and its status stays `running`. -/
def wait {α : Type} : Proc α := fun w => (none, w)

/-- The call `uv_run(&loop, UV_RUN_DEFAULT)` against the completions of the
coming iterations: the loop runs while it is alive and not stopped, clears the
stop flag when it leaves and returns whether it is still alive. -/
def uv_run : List (List Event) → Proc Int
  | [] => do
      let w ← getWorld
      if loop_alive w && !w.loop.stop_flag then wait
      else
        modifyWorld fun w => { w with loop := { w.loop with stop_flag := false } }
        pure (if loop_alive w then 1 else 0)
  | evs :: rest => do
      let w ← getWorld
      if loop_alive w && !w.loop.stop_flag then
        evs.forM deliver
        run_closing_handles
        uv_run rest
      else
        modifyWorld fun w => { w with loop := { w.loop with stop_flag := false } }
        pure (if loop_alive w then 1 else 0)

/-! ## libuv calls made by `main` -/

/-- A loop right after `uv_loop_init` (also the zeroed global before it). -/
def uv_loop_t.fresh : uv_loop_t :=
  { stop_flag := false
    handles := fun _ => { init := false, active := false, ref := false, closing := false, closed := false }
    closing_queue := []
    write_queue := []
    taken := []
    getaddrinfo_pending := false
    getaddrinfo_service := ""
    connect_pending := false }

/-- The call `uv_loop_init(&loop)` with libuv's return code `rc`. -/
def uv_loop_init (rc : Int) : Proc Int := do
  if rc < 0 then pure rc
  else
    modifyWorld fun w => { w with loop := uv_loop_t.fresh }
    pure rc

/-- The calls `uv_signal_init`, `uv_tcp_init` and `uv_pipe_init`: on success the
handle is registered with the loop and referenced. -/
def uv_handle_init (rc : Int) (h : Handle) : Proc Int := do
  if rc < 0 then pure rc
  else
    setHandle h fun s => { s with init := true, ref := true }
    pure rc

/-- The call `uv_signal_start(&h, on_signal, signum)`. -/
def uv_signal_start (rc : Int) (h : Handle) : Proc Int := do
  if rc < 0 then pure rc
  else
    setHandle h fun s => { s with active := true }
    pure rc

/-- The call `uv_signal_stop(&h)`. -/
def uv_signal_stop (rc : Int) (h : Handle) : Proc Int := do
  if rc < 0 then pure rc
  else
    setHandle h fun s => { s with active := false }
    pure rc

/-- The call `uv_unref(&h)`. -/
def uv_unref (h : Handle) : Proc Unit :=
  setHandle h fun s => { s with ref := false }

/-- The call `uv_pipe_open(&h, fd)`. -/
def uv_pipe_open (rc : Int) (_h : Handle) (_fd : Nat) : Proc Int :=
  pure rc

/-- The call `uv_getaddrinfo(&loop, &getaddrinfo_req, on_getaddrinfo, node,
service, NULL)` with libuv's return code `rc`: on success the request for that
host and service is pending. -/
def uv_getaddrinfo (rc : Int) (_node : String) (service : String) : Proc Int := do
  if rc < 0 then pure rc
  else
    modifyWorld fun w => { w with loop := { w.loop with
      getaddrinfo_pending := true
      getaddrinfo_service := service } }
    pure rc

/-- The call `uv_loop_close(&loop)`: `UV_EBUSY` while a request is pending or a
handle is still registered. -/
def uv_loop_close : Proc Int := do
  let w ← getWorld
  if w.loop.getaddrinfo_pending || w.loop.connect_pending || !w.loop.write_queue.isEmpty ||
      Handle.all.any (fun h => (w.loop.handles h).init && !(w.loop.handles h).closed) then
    pure UV_EBUSY
  else pure 0

/-! ## `main` -/

/-- Everything the outside world decides during one run of `main`: the return
codes of the checked libuv calls, whether the two scratch allocations succeed,
and the completions each of the two `uv_run` calls gets to see, grouped by
loop iteration. -/
structure MainEnv where
  rc_loop_init : Int
  rc_signal_init_sigterm : Int
  rc_signal_start_sigterm : Int
  rc_signal_init_sigint : Int
  rc_signal_start_sigint : Int
  read_buffer_ok : Bool
  write_buffer_ok : Bool
  rc_getaddrinfo : Int
  rc_tcp_init : Int
  rc_pipe_init_stdin : Int
  rc_pipe_open_stdin : Int
  rc_pipe_init_stdout : Int
  rc_pipe_open_stdout : Int
  run1 : List (List Event)
  rc_signal_stop_sigterm : Int
  rc_signal_stop_sigint : Int
  rc_read_stop_tcp : Int
  rc_read_stop_stdin : Int
  run2 : List (List Event)
  deriving Repr

/-- The signal numbers of Linux. -/
def SIGINT : Int := 2

/-- See `SIGINT`. -/
def SIGTERM : Int := 15

/-- The set-up part of `main` (lines 130 to 147): loop, signal watchers,
scratch buffers, the resolution request and the three stream handles. -/
def main_setup (env : MainEnv) : Proc Unit := do
  check_uv (← uv_loop_init env.rc_loop_init)

  check_uv (← uv_handle_init env.rc_signal_init_sigterm .sigterm)
  check_uv (← uv_signal_start env.rc_signal_start_sigterm .sigterm)
  uv_unref .sigterm
  check_uv (← uv_handle_init env.rc_signal_init_sigint .sigint)
  check_uv (← uv_signal_start env.rc_signal_start_sigint .sigint)
  uv_unref .sigint

  let rb ← malloc env.read_buffer_ok BUFFER_LEN
  modifyWorld fun w => { w with read_buffer := uv_buf_init rb BUFFER_LEN }
  let wb ← malloc env.write_buffer_ok BUFFER_LEN
  modifyWorld fun w => { w with write_buffer := uv_buf_init wb BUFFER_LEN }
  check_uv (← uv_getaddrinfo env.rc_getaddrinfo IP PORT)
  check_uv (← uv_handle_init env.rc_tcp_init .tcp)

  check_uv (← uv_handle_init env.rc_pipe_init_stdin .stdin_pipe)
  check_uv (← uv_pipe_open env.rc_pipe_open_stdin .stdin_pipe 0)
  check_uv (← uv_handle_init env.rc_pipe_init_stdout .stdout_pipe)
  check_uv (← uv_pipe_open env.rc_pipe_open_stdout .stdout_pipe 1)

/-- The stop and close part of `main` (lines 151 to 164), which runs once the
first `uv_run` has returned. -/
def main_teardown (env : MainEnv) : Proc Int := do
  check_uv (← uv_signal_stop env.rc_signal_stop_sigterm .sigterm)
  check_uv (← uv_signal_stop env.rc_signal_stop_sigint .sigint)
  check_uv (← uv_read_stop env.rc_read_stop_tcp (← getWorld).connect_req_handle)
  check_uv (← uv_read_stop env.rc_read_stop_stdin (some .stdin_pipe))
  if (← getWorld).read_buffer.base ≠ 0 then
    free (← getWorld).read_buffer.base
  if (← getWorld).write_buffer.base ≠ 0 then
    free (← getWorld).write_buffer.base

  uv_walk
  check_uv (← uv_run env.run2)
  check_uv (← uv_loop_close)

  return 0

/-- The part of `main` from the first `uv_run` on (lines 149 to 164), with the
completions `its` still to come in that `uv_run`. -/
def main_from_run (env : MainEnv) (its : List (List Event)) : Proc Int := do
  check_uv (← uv_run its)
  main_teardown env

/-- The function `main`: set-up, the first `uv_run`, stop and close. -/
def main (env : MainEnv) : Proc Int := do
  main_setup env
  main_from_run env env.run1

/-- The process image before `main` runs: zeroed globals, empty heap. -/
def World.initial : World :=
  { status := .running
    stdout := []
    stderr := []
    heap := { cells := [], frees := [] }
    loop := uv_loop_t.fresh
    addr := { sin_port := (0, 0), sin_addr := (0, 0, 0, 0) }
    connect_req_handle := none
    read_buffer := { base := 0, len := 0 }
    write_buffer := { base := 0, len := 0 } }

/-- The end of the process: when `main` returns, its value is the exit status;
otherwise the process has already stopped, or sits in `uv_run`. -/
def finish (r : Option Int × World) : World :=
  match r with
  | (some code, w) => { w with status := .exited code }
  | (none, w) => w

/-- A whole run of the program. -/
def program (env : MainEnv) : World :=
  finish (main env World.initial)

/-! ## Observations and states the statements speak about -/

/-- The bytes a queued write sends: `buf.len` bytes starting at `buf.base`,
read from the heap at the time of the observation. -/
def PendingWrite.payload (h : Heap) (pw : PendingWrite) : List UInt8 :=
  (h.bytesAt pw.buf.base).take pw.buf.len

/-- The payloads of the writes queued on stream `h`, oldest first. -/
def writes_to (w : World) (h : Handle) : List (List UInt8) :=
  (w.loop.write_queue.filter fun pw => pw.handle = h).map (PendingWrite.payload w.heap)

/-- Both allocations of a read callback succeed and `uv_write` takes the request. -/
def ReadEnv.accepts (e : ReadEnv) : Prop :=
  e.req_ok = true ∧ e.buf_ok = true ∧ 0 ≤ e.rc_write

instance (e : ReadEnv) : Decidable e.accepts :=
  inferInstanceAs (Decidable (e.req_ok = true ∧ e.buf_ok = true ∧ 0 ≤ e.rc_write))

/-- The two forwarding paths. -/
inductive Path where
  | stdin_to_socket
  | socket_to_stdout
  deriving DecidableEq, Repr

/-- The read completion of a path that carries the bytes `c.1`. -/
def Path.completion : Path → List UInt8 × ReadEnv → Event
  | .stdin_to_socket, c => .stdin_read (.data c.1) c.2
  | .socket_to_stdout, c => .tcp_read (.data c.1) c.2

/-- The scratch buffer the allocation callback of a path hands out. -/
def Path.scratch : Path → World → uv_buf_t
  | .stdin_to_socket => on_alloc_stdin
  | .socket_to_stdout => on_alloc_tcp

/-- The stream a path writes to. -/
def Path.sink : Path → Handle
  | .stdin_to_socket => .tcp
  | .socket_to_stdout => .stdout_pipe

/-- The completion callback of the writes of a path. -/
def Path.cb : Path → WriteCb
  | .stdin_to_socket => .on_tcp_write
  | .socket_to_stdout => .on_stdout_write

/-- The state of a program that is connected and forwarding: both streams are
being read, the two scratch buffers are live and distinct, and every queued
write has its own live request object and payload buffer. -/
structure Relaying (w : World) : Prop where
  running : w.status = .running
  conn : w.connect_req_handle = some .tcp
  stdin_reading : (w.loop.handles .stdin_pipe).active = true
  tcp_reading : (w.loop.handles .tcp).active = true
  rb_len : w.read_buffer.len = BUFFER_LEN
  wb_len : w.write_buffer.len = BUFFER_LEN
  rb_live : ∃ s, w.heap.read w.read_buffer.base = some (.bytes s) ∧ w.read_buffer.len ≤ s.length
  wb_live : ∃ s, w.heap.read w.write_buffer.base = some (.bytes s) ∧ w.write_buffer.len ≤ s.length
  scratch_ne : w.read_buffer.base ≠ w.write_buffer.base
  req_live : ∀ pw ∈ w.loop.write_queue, w.heap.read pw.req = some (.write_req pw.buf.base)
  buf_live : ∀ pw ∈ w.loop.write_queue,
    ∃ s, w.heap.read pw.buf.base = some (.bytes s) ∧ pw.buf.len ≤ s.length
  buf_sep : ∀ pw ∈ w.loop.write_queue,
    pw.buf.base ≠ w.read_buffer.base ∧ pw.buf.base ≠ w.write_buffer.base
  req_nodup : (w.loop.write_queue.map fun pw => pw.req).Nodup
  buf_nodup : (w.loop.write_queue.map fun pw => pw.buf.base).Nodup
  freed_dead : ∀ p ∈ w.heap.frees, w.heap.read p = none ∧ p ≤ w.heap.cells.length

/-- The world after one read completion with bytes `d` on a path with the given
scratch buffer, sink and callback, when the allocator and `uv_write` accept:
libuv has stored `d` at the start of the scratch buffer, the heap has two new
blocks (the request and the copy) and the queue one new request. -/
def relay_step (w : World) (scratch : uv_buf_t) (sink : Handle) (cb : WriteCb)
    (d : List UInt8) : World :=
  { w with
    heap :=
      { cells :=
          (w.heap.write scratch.base
            (.bytes (d ++ (w.heap.bytesAt scratch.base).drop d.length))).cells ++
          [some (.write_req (w.heap.cells.length + 2)), some (.bytes d)]
        frees := w.heap.frees }
    loop := { w.loop with
      write_queue := w.loop.write_queue ++
        [{ req := w.heap.cells.length + 1, handle := sink,
           buf := { base := w.heap.cells.length + 2, len := d.length }, cb := cb }] } }

/-- The states of the shutdown coordinator. -/
inductive Phase where
  | RUNNING
  | STOPPING
  | CLOSING
  | TERMINATED
  deriving DecidableEq, Repr

/-- The shutdown state read off the loop: `TERMINATED` once all handles are
closed, `CLOSING` once a handle has been asked to close, `STOPPING` when the
loop has been asked to stop, else `RUNNING`. -/
def phase (w : World) : Phase :=
  if Handle.all.all (fun h => (w.loop.handles h).closed) then .TERMINATED
  else if Handle.all.any (fun h => (w.loop.handles h).closing) then .CLOSING
  else if w.loop.stop_flag then .STOPPING
  else .RUNNING

/-- What can start a graceful shutdown. -/
inductive Trigger where
  | sigint
  | sigterm
  | stdin_eof
  | socket_eof
  deriving DecidableEq, Repr

/-- The completion through which a trigger reaches the program. -/
def Trigger.event : Trigger → Event
  | .sigint => .signal .sigint SIGINT
  | .sigterm => .signal .sigterm SIGTERM
  | .stdin_eof => .stdin_read .eof { req_ok := true, buf_ok := true, rc_write := 0 }
  | .socket_eof => .tcp_read .eof { req_ok := true, buf_ok := true, rc_write := 0 }

/-- A forwarding program with nothing in flight: no queued write, no pending
request, every handle registered, none closing, both signal watchers started. -/
structure Idle (w : World) : Prop where
  relaying : Relaying w
  no_write : w.loop.write_queue = []
  no_getaddrinfo : w.loop.getaddrinfo_pending = false
  no_connect : w.loop.connect_pending = false
  no_closing : w.loop.closing_queue = []
  not_stopped : w.loop.stop_flag = false
  registered : ∀ h, (w.loop.handles h).init = true ∧ (w.loop.handles h).closing = false ∧
    (w.loop.handles h).closed = false
  sigterm_started : (w.loop.handles .sigterm).active = true
  sigint_started : (w.loop.handles .sigint).active = true
  stdin_ref : (w.loop.handles .stdin_pipe).ref = true

/-! ## Concrete runs -/

/-- An environment in which every libuv call of `main` returns `0` and both
scratch allocations succeed. -/
def MainEnv.ok (run1 run2 : List (List Event)) : MainEnv :=
  { rc_loop_init := 0, rc_signal_init_sigterm := 0, rc_signal_start_sigterm := 0
    rc_signal_init_sigint := 0, rc_signal_start_sigint := 0
    read_buffer_ok := true, write_buffer_ok := true
    rc_getaddrinfo := 0, rc_tcp_init := 0
    rc_pipe_init_stdin := 0, rc_pipe_open_stdin := 0
    rc_pipe_init_stdout := 0, rc_pipe_open_stdout := 0
    run1 := run1
    rc_signal_stop_sigterm := 0, rc_signal_stop_sigint := 0
    rc_read_stop_tcp := 0, rc_read_stop_stdin := 0
    run2 := run2 }

/-- The address `127.0.0.1`, port `12345`. -/
def localhost : sockaddr_in := { sin_port := htons 12345, sin_addr := (127, 0, 0, 1) }

/-- The lookup of `IP` succeeds with `127.0.0.1` and `uv_tcp_connect` accepts
the request. -/
def Event.resolved : Event := .getaddrinfo_done 0 (some (127, 0, 0, 1)) 0

/-- An accepting environment for a read callback. -/
def ReadEnv.ok : ReadEnv := { req_ok := true, buf_ok := true, rc_write := 0 }

/-- Resolution and connection both succeed. -/
def connect_events : List (List Event) :=
  [[.resolved],
   [.connect_done 0 { rc_read_start_tcp := 0, rc_read_start_stdin := 0 }]]

/-- The bytes of `"hello\n"`. -/
def hello : List UInt8 := [104, 101, 108, 108, 111, 10]

/-- The bytes of `"world"`. -/
def world : List UInt8 := [119, 111, 114, 108, 100]

/-- The program after `main` has set up, resolved and connected, waiting in
the first `uv_run`. -/
def World.connected : World :=
  { status := .running
    stdout := ["Connected to 127.0.0.1 on port 12345!\n"]
    stderr := []
    heap :=
      { cells := [some (.bytes (List.replicate BUFFER_LEN 0)), some (.bytes (List.replicate BUFFER_LEN 0))]
        frees := [] }
    loop :=
      { stop_flag := false
        handles := fun h =>
          match h with
          | .sigterm => { init := true, active := true, ref := false, closing := false, closed := false }
          | .sigint => { init := true, active := true, ref := false, closing := false, closed := false }
          | .tcp => { init := true, active := true, ref := true, closing := false, closed := false }
          | .stdin_pipe => { init := true, active := true, ref := true, closing := false, closed := false }
          | .stdout_pipe => { init := true, active := false, ref := true, closing := false, closed := false }
        closing_queue := []
        write_queue := []
        taken := []
        getaddrinfo_pending := false
        getaddrinfo_service := PORT
        connect_pending := false }
    addr := localhost
    connect_req_handle := some .tcp
    read_buffer := { base := 1, len := BUFFER_LEN }
    write_buffer := { base := 2, len := BUFFER_LEN } }

/-- The world after the write `pw` has completed successfully: its payload
buffer and its request object are released, in that order, and libuv has taken
the request off the queue. -/
def complete (w : World) (pw : PendingWrite) : World :=
  { w with
    heap := (w.heap.release pw.buf.base).release pw.req
    loop := { w.loop with write_queue := w.loop.write_queue.erase pw } }

/-- The completions of ordinary forwarding, as far as the write request `skip`
is not concerned: reads that carry data (with the allocator and `uv_write`
accepting), the kernel accepting the bytes of a write, and successful
completions of other writes. -/
def Event.forwarding (skip : Nat) : Event → Bool
  | .stdin_read (.data d) e => decide (d ≠ [] ∧ d.length ≤ BUFFER_LEN ∧ e.accepts)
  | .tcp_read (.data d) e => decide (d ≠ [] ∧ d.length ≤ BUFFER_LEN ∧ e.accepts)
  | .write_taken _ => true
  | .write_done req status => decide (req ≠ skip ∧ 0 ≤ status)
  | _ => false

/-- The connected program after it has read `"hello\n"` from stdin: one write
to the socket is in flight (request at address `3`, payload at address `4`). -/
def World.one_write : World :=
  (deliver (.stdin_read (.data hello) ReadEnv.ok) World.connected).2

/-- The connected program right after `SIGINT` has been handled: the loop has
been asked to stop. -/
def World.stopping : World :=
  (on_signal .sigint SIGINT World.connected).2

/-! ## The process monad: evaluation rules -/

@[simp] theorem bind_apply {α β : Type} (m : Proc α) (f : α → Proc β) (w : World) :
    (m >>= f) w = match m w with
      | (some a, w1) => f a w1
      | (none, w1) => (none, w1) := rfl

@[simp] theorem pure_apply {α : Type} (a : α) (w : World) :
    (pure a : Proc α) w = (some a, w) := rfl

@[simp] theorem getWorld_apply (w : World) : getWorld w = (some w, w) := rfl

@[simp] theorem modifyWorld_apply (f : World → World) (w : World) :
    modifyWorld f w = (some (), f w) := rfl

@[simp] theorem exit_apply {α : Type} (c : Int) (w : World) :
    (exit c : Proc α) w = (none, { w with status := .exited c }) := rfl

@[simp] theorem crash_apply {α : Type} (w : World) :
    (crash : Proc α) w = (none, { w with status := .crashed }) := rfl

theorem check_uv_neg (c : Int) (h : c < 0) (w : World) :
    check_uv c w = (none, { w with stderr := w.stderr ++ [.uv_error c], status := .exited c }) := by
  simp [check_uv, h, fprintf_stderr]

theorem check_uv_nonneg (c : Int) (h : 0 ≤ c) (w : World) :
    check_uv c w = (some (), w) := by
  simp [check_uv, not_lt.mpr h]

theorem forM_nil_apply {α : Type} (f : α → Proc PUnit) (w : World) :
    ([] : List α).forM f w = (some ⟨⟩, w) := rfl

theorem forM_cons_apply {α : Type} (f : α → Proc PUnit) (a : α) (as : List α) (w : World) :
    (a :: as).forM f w = match f a w with
      | (some _, w1) => as.forM f w1
      | (none, w1) => (none, w1) := by
  show (f a >>= fun _ => as.forM f) w = _
  rw [bind_apply]
  rcases f a w with ⟨o, w1⟩
  cases o <;> rfl

/-! ## The heap: reading after allocation, overwrite and release -/

theorem Heap.read_some_lt {h : Heap} {p : Nat} {b : Block} (hr : h.read p = some b) :
    ∃ q, p = q + 1 ∧ q < h.cells.length ∧ h.cells[q]? = some (some b) := by
  cases p with
  | zero => simp [Heap.read] at hr
  | succ q =>
    refine ⟨q, rfl, ?_, ?_⟩
    · by_contra hlt
      simp [Heap.read, List.getElem?_eq_none (not_lt.mp hlt)] at hr
    · simp only [Heap.read] at hr
      cases hq : h.cells[q]? with
      | none => simp [hq] at hr
      | some x => simp [hq] at hr; simp [hr]

theorem Heap.read_some_le {h : Heap} {p : Nat} {b : Block} (hr : h.read p = some b) :
    p ≠ 0 ∧ p ≤ h.cells.length := by
  obtain ⟨q, hq, hlt, _⟩ := Heap.read_some_lt hr
  subst hq
  exact ⟨Nat.succ_ne_zero q, hlt⟩

theorem Heap.read_of_cells {h h1 : Heap} (hc : h.cells = h1.cells) (p : Nat) :
    h.read p = h1.read p := by
  cases p with
  | zero => rfl
  | succ q => simp [Heap.read, hc]

theorem Heap.read_beyond (h : Heap) (p : Nat) (hp : h.cells.length < p) : h.read p = none := by
  cases hr : h.read p with
  | none => rfl
  | some b => exact absurd (Heap.read_some_le hr).2 (not_le.mpr hp)

theorem Heap.read_write_ne (h : Heap) (p q : Nat) (b : Block) (hne : q ≠ p) :
    (h.write p b).read q = h.read q := by
  cases p with
  | zero => rfl
  | succ p1 =>
    cases q with
    | zero => rfl
    | succ q1 =>
      have hne1 : p1 ≠ q1 := fun e => hne (by rw [e])
      simp [Heap.read, Heap.write, List.getElem?_set_ne hne1]

theorem Heap.read_write_same (h : Heap) (p : Nat) (b x : Block) (hr : h.read p = some x) :
    (h.write p b).read p = some b := by
  obtain ⟨q, hq, hlt, _⟩ := Heap.read_some_lt hr
  subst hq
  simp [Heap.read, Heap.write, List.getElem?_set_self, hlt]

theorem Heap.length_write (h : Heap) (p : Nat) (b : Block) :
    (h.write p b).cells.length = h.cells.length := by
  cases p <;> simp [Heap.write]

theorem Heap.frees_write (h : Heap) (p : Nat) (b : Block) : (h.write p b).frees = h.frees := by
  cases p <;> rfl

theorem Heap.read_release_ne (h : Heap) (p q : Nat) (hne : q ≠ p) :
    (h.release p).read q = h.read q := by
  cases p with
  | zero => rfl
  | succ p1 =>
    cases q with
    | zero => rfl
    | succ q1 =>
      have hne1 : p1 ≠ q1 := fun e => hne (by rw [e])
      simp [Heap.read, Heap.release, List.getElem?_set_ne hne1]

theorem Heap.read_release_same (h : Heap) (p : Nat) : (h.release p).read p = none := by
  cases p with
  | zero => rfl
  | succ q =>
    by_cases hlt : q < h.cells.length
    · simp [Heap.read, Heap.release, List.getElem?_set_self, hlt]
    · have hlen : (h.cells.set q none).length ≤ q := by
        rw [List.length_set]
        exact not_lt.mp hlt
      simp [Heap.read, Heap.release, List.getElem?_eq_none hlen]

theorem Heap.frees_release (h : Heap) (p : Nat) (hp : p ≠ 0) :
    (h.release p).frees = h.frees ++ [p] := by
  cases p with
  | zero => exact absurd rfl hp
  | succ q => rfl

theorem Heap.length_release (h : Heap) (p : Nat) :
    (h.release p).cells.length = h.cells.length := by
  cases p <;> simp [Heap.release]

theorem Heap.read_append_of_some {c ext : List (Option Block)} {f f1 : List Nat} {p : Nat}
    {b : Block} (hr : Heap.read ⟨c, f⟩ p = some b) : Heap.read ⟨c ++ ext, f1⟩ p = some b := by
  obtain ⟨q, hq, hlt, hcell⟩ := Heap.read_some_lt hr
  subst hq
  simp only [Heap.read] at *
  rw [List.getElem?_append_left hlt]
  exact hr

theorem Heap.read_append_of_le (c ext : List (Option Block)) (f f1 : List Nat) (p : Nat)
    (hp : p ≤ c.length) : Heap.read ⟨c ++ ext, f1⟩ p = Heap.read ⟨c, f⟩ p := by
  cases p with
  | zero => rfl
  | succ q =>
    simp only [Heap.read]
    rw [List.getElem?_append_left (Nat.lt_of_succ_le hp)]

theorem Heap.read_append_fst (c : List (Option Block)) (f : List Nat) (a b : Option Block) :
    Heap.read ⟨c ++ [a, b], f⟩ (c.length + 1) = a := by
  show ((c ++ [a, b])[c.length]?).join = a
  rw [List.getElem?_append_right (le_refl _)]
  simp

theorem Heap.read_append_snd (c : List (Option Block)) (f : List Nat) (a b : Option Block) :
    Heap.read ⟨c ++ [a, b], f⟩ (c.length + 2) = b := by
  show ((c ++ [a, b])[c.length + 1]?).join = b
  rw [List.getElem?_append_right (Nat.le_succ _)]
  simp

theorem set_append_fst {α : Type} (c : List α) (a b x : α) :
    (c ++ [a, b]).set c.length x = c ++ [x, b] := by
  induction c with
  | nil => rfl
  | cons y ys ih => simp [ih]

theorem set_append_snd {α : Type} (c : List α) (a b x : α) :
    (c ++ [a, b]).set (c.length + 1) x = c ++ [a, x] := by
  induction c with
  | nil => rfl
  | cons y ys ih => simp [ih]

/-! ## The primitives on their success paths -/

theorem memcpy_ok (w : World) (dst src : Nat) (n : Nat) (d s : List UInt8)
    (hd : w.heap.read dst = some (.bytes d)) (hs : w.heap.read src = some (.bytes s))
    (hnd : n ≤ d.length) (hns : n ≤ s.length) :
    memcpy dst src n w =
      (some (), { w with heap := w.heap.write dst (.bytes (s.take n ++ d.drop n)) }) := by
  simp [memcpy, hd, hs, hnd, hns]

theorem set_req_data_ok (w : World) (req p d : Nat) (hr : w.heap.read req = some (.write_req d)) :
    set_req_data req p w = (some (), { w with heap := w.heap.write req (.write_req p) }) := by
  simp [set_req_data, hr]

theorem uv_write_ok (w : World) (rc : Int) (req : Nat) (h : Handle) (buf : uv_buf_t) (cb : WriteCb)
    (hrc : 0 ≤ rc) :
    uv_write rc req (some h) buf cb w = (some rc, { w with loop := { w.loop with
      write_queue := w.loop.write_queue ++ [{ req := req, handle := h, buf := buf, cb := cb }] } }) := by
  simp [uv_write, not_lt.mpr hrc]

theorem on_stdin_read_pos (w : World) (e : ReadEnv) (nread : Int) (buf : uv_buf_t)
    (s : List UInt8) (h : Handle)
    (hn : 0 < nread) (he : e.accepts)
    (hs : w.heap.read buf.base = some (.bytes s)) (hlen : nread.toNat ≤ s.length)
    (hc : w.connect_req_handle = some h) :
    on_stdin_read e nread buf w = (some (), { w with
      heap := { w.heap with cells := w.heap.cells ++
        [some (.write_req (w.heap.cells.length + 2)), some (.bytes (s.take nread.toNat))] }
      loop := { w.loop with write_queue := w.loop.write_queue ++
        [{ req := w.heap.cells.length + 1, handle := h,
           buf := { base := w.heap.cells.length + 2, len := nread.toNat }, cb := .on_tcp_write }] } }) := by
  obtain ⟨hreq, hbuf, hrc⟩ := he
  have hs1 : Heap.read ⟨w.heap.cells, w.heap.frees⟩ buf.base = some (.bytes s) := hs
  simp only [on_stdin_read, hn, hreq, hbuf, malloc_uv_write_t, malloc, Heap.alloc, uv_buf_init,
    bind_apply, pure_apply, if_true, List.append_assoc, List.singleton_append, List.length_append,
    List.length_singleton, Nat.succ_ne_zero, if_false, getWorld_apply, gt_iff_lt, ite_true,
    Nat.add_one_ne_zero, ↓reduceIte]
  rw [memcpy_ok _ _ _ _ (List.replicate nread.toNat 0) s (Heap.read_append_snd _ _ _ _)
    (Heap.read_append_of_some hs1) (by simp) hlen]
  simp only [Heap.write, set_append_snd]
  rw [set_req_data_ok _ _ _ 0 (Heap.read_append_fst _ _ _ _)]
  simp only [Heap.write, set_append_fst, hc]
  rw [uv_write_ok _ _ _ _ _ _ hrc]
  simp [check_uv_nonneg _ hrc]

theorem on_tcp_read_pos (w : World) (e : ReadEnv) (nread : Int) (buf : uv_buf_t)
    (s : List UInt8)
    (hn : 0 < nread) (he : e.accepts)
    (hs : w.heap.read buf.base = some (.bytes s)) (hlen : nread.toNat ≤ s.length) :
    on_tcp_read e nread buf w = (some (), { w with
      heap := { w.heap with cells := w.heap.cells ++
        [some (.write_req (w.heap.cells.length + 2)), some (.bytes (s.take nread.toNat))] }
      loop := { w.loop with write_queue := w.loop.write_queue ++
        [{ req := w.heap.cells.length + 1, handle := .stdout_pipe,
           buf := { base := w.heap.cells.length + 2, len := nread.toNat }, cb := .on_stdout_write }] } }) := by
  obtain ⟨hreq, hbuf, hrc⟩ := he
  have hs1 : Heap.read ⟨w.heap.cells, w.heap.frees⟩ buf.base = some (.bytes s) := hs
  simp only [on_tcp_read, hn, hreq, hbuf, malloc_uv_write_t, malloc, Heap.alloc, uv_buf_init,
    bind_apply, pure_apply, if_true, List.append_assoc, List.singleton_append, List.length_append,
    List.length_singleton, Nat.succ_ne_zero, if_false, getWorld_apply, gt_iff_lt, ite_true,
    Nat.add_one_ne_zero, ↓reduceIte]
  rw [memcpy_ok _ _ _ _ (List.replicate nread.toNat 0) s (Heap.read_append_snd _ _ _ _)
    (Heap.read_append_of_some hs1) (by simp) hlen]
  simp only [Heap.write, set_append_snd]
  rw [set_req_data_ok _ _ _ 0 (Heap.read_append_fst _ _ _ _)]
  simp only [Heap.write, set_append_fst]
  rw [uv_write_ok _ _ _ _ _ _ hrc]
  simp [check_uv_nonneg _ hrc]

/-! ## One read completion with data -/

theorem Heap.bytesAt_of_read {h : Heap} {p : Nat} {s : List UInt8}
    (hr : h.read p = some (.bytes s)) : h.bytesAt p = s := by
  simp [Heap.bytesAt, hr]

theorem uv_read_into_ok (w : World) (buf : uv_buf_t) (bs old : List UInt8)
    (hr : w.heap.read buf.base = some (.bytes old)) (hlen : bs.length ≤ old.length) :
    uv_read_into buf bs w = (some (), { w with
      heap := w.heap.write buf.base (.bytes (bs ++ old.drop bs.length)) }) := by
  simp [uv_read_into, hr, hlen]

theorem deliver_stdin_data (w : World) (d : List UInt8) (e : ReadEnv) (hw : Relaying w)
    (hd : d ≠ []) (hlen : d.length ≤ BUFFER_LEN) (he : e.accepts) :
    deliver (.stdin_read (.data d) e) w =
      (some (), relay_step w w.write_buffer .tcp .on_tcp_write d) := by
  obtain ⟨old, hold, hcap⟩ := hw.wb_live
  have hbase : w.write_buffer.base ≠ 0 := (Heap.read_some_le hold).1
  have hlen0 : w.write_buffer.len ≠ 0 := by rw [hw.wb_len]; decide
  have htake : d.take w.write_buffer.len = d := List.take_of_length_le (by rw [hw.wb_len]; exact hlen)
  have hdo : d.length ≤ old.length := le_trans (by rw [hw.wb_len]; exact hlen) hcap
  have hpos : 0 < (d.length : Int) := by
    have := List.length_pos.mpr hd
    omega
  simp only [deliver, deliver_read, bind_apply, getWorld_apply, hw.stdin_reading, if_true,
    on_alloc_stdin, hbase, hlen0, or_self, if_false, htake, ↓reduceIte]
  rw [uv_read_into_ok w _ d old hold hdo]
  simp only []
  rw [on_stdin_read_pos
    { w with heap := w.heap.write w.write_buffer.base (.bytes (d ++ old.drop d.length)) }
    e _ _ (d ++ old.drop d.length) .tcp hpos he
    (Heap.read_write_same _ _ _ _ hold) (by simp) hw.conn]
  simp [relay_step, Heap.length_write, Heap.frees_write, Heap.bytesAt_of_read hold]

theorem deliver_tcp_data (w : World) (d : List UInt8) (e : ReadEnv) (hw : Relaying w)
    (hd : d ≠ []) (hlen : d.length ≤ BUFFER_LEN) (he : e.accepts) :
    deliver (.tcp_read (.data d) e) w =
      (some (), relay_step w w.read_buffer .stdout_pipe .on_stdout_write d) := by
  obtain ⟨old, hold, hcap⟩ := hw.rb_live
  have hbase : w.read_buffer.base ≠ 0 := (Heap.read_some_le hold).1
  have hlen0 : w.read_buffer.len ≠ 0 := by rw [hw.rb_len]; decide
  have htake : d.take w.read_buffer.len = d := List.take_of_length_le (by rw [hw.rb_len]; exact hlen)
  have hdo : d.length ≤ old.length := le_trans (by rw [hw.rb_len]; exact hlen) hcap
  have hpos : 0 < (d.length : Int) := by
    have := List.length_pos.mpr hd
    omega
  simp only [deliver, deliver_read, bind_apply, getWorld_apply, hw.tcp_reading, if_true,
    on_alloc_tcp, hbase, hlen0, or_self, if_false, htake, ↓reduceIte]
  rw [uv_read_into_ok w _ d old hold hdo]
  simp only []
  rw [on_tcp_read_pos
    { w with heap := w.heap.write w.read_buffer.base (.bytes (d ++ old.drop d.length)) }
    e _ _ (d ++ old.drop d.length) hpos he
    (Heap.read_write_same _ _ _ _ hold) (by simp)]
  simp [relay_step, Heap.length_write, Heap.frees_write, Heap.bytesAt_of_read hold]

/-! ## What one read completion does to the heap and to the invariant -/

theorem relay_step_length (w : World) (scratch : uv_buf_t) (sink : Handle) (cb : WriteCb)
    (d : List UInt8) :
    (relay_step w scratch sink cb d).heap.cells.length = w.heap.cells.length + 2 := by
  simp [relay_step, Heap.length_write]

theorem relay_step_read_old (w : World) (scratch : uv_buf_t) (sink : Handle) (cb : WriteCb)
    (d : List UInt8) (p : Nat) (hp : p ≤ w.heap.cells.length) (hne : p ≠ scratch.base) :
    (relay_step w scratch sink cb d).heap.read p = w.heap.read p := by
  have h1 := Heap.read_append_of_le
    (w.heap.write scratch.base (.bytes (d ++ (w.heap.bytesAt scratch.base).drop d.length))).cells
    [some (.write_req (w.heap.cells.length + 2)), some (.bytes d)] w.heap.frees w.heap.frees p
    (by rw [Heap.length_write]; exact hp)
  have h2 : Heap.read
      ⟨(w.heap.write scratch.base
        (.bytes (d ++ (w.heap.bytesAt scratch.base).drop d.length))).cells, w.heap.frees⟩ p =
      (w.heap.write scratch.base
        (.bytes (d ++ (w.heap.bytesAt scratch.base).drop d.length))).read p :=
    Heap.read_of_cells rfl p
  show Heap.read ⟨_, _⟩ p = _
  rw [h1, h2, Heap.read_write_ne _ _ _ _ hne]

theorem relay_step_read_scratch (w : World) (scratch : uv_buf_t) (sink : Handle) (cb : WriteCb)
    (d old : List UInt8) (hold : w.heap.read scratch.base = some (.bytes old)) :
    (relay_step w scratch sink cb d).heap.read scratch.base =
      some (.bytes (d ++ old.drop d.length)) := by
  have hw := Heap.read_write_same w.heap scratch.base
    (.bytes (d ++ (w.heap.bytesAt scratch.base).drop d.length)) _ hold
  rw [Heap.bytesAt_of_read hold] at hw
  have h2 : Heap.read ⟨(w.heap.write scratch.base
      (.bytes (d ++ old.drop d.length))).cells, w.heap.frees⟩ scratch.base =
      (w.heap.write scratch.base (.bytes (d ++ old.drop d.length))).read scratch.base :=
    Heap.read_of_cells rfl scratch.base
  rw [hw] at h2
  have h3 : Heap.read ⟨(w.heap.write scratch.base
      (.bytes (d ++ old.drop d.length))).cells ++
      [some (.write_req (w.heap.cells.length + 2)), some (.bytes d)], w.heap.frees⟩
      scratch.base = some (.bytes (d ++ old.drop d.length)) :=
    Heap.read_append_of_some h2
  show Heap.read ⟨_, _⟩ _ = _
  rw [Heap.bytesAt_of_read hold]
  exact h3

theorem relay_step_read_req (w : World) (scratch : uv_buf_t) (sink : Handle) (cb : WriteCb)
    (d : List UInt8) :
    (relay_step w scratch sink cb d).heap.read (w.heap.cells.length + 1) =
      some (.write_req (w.heap.cells.length + 2)) := by
  have h := Heap.read_append_fst
    (w.heap.write scratch.base (.bytes (d ++ (w.heap.bytesAt scratch.base).drop d.length))).cells
    w.heap.frees (some (.write_req (w.heap.cells.length + 2))) (some (.bytes d))
  rw [Heap.length_write] at h
  exact h

theorem relay_step_read_buf (w : World) (scratch : uv_buf_t) (sink : Handle) (cb : WriteCb)
    (d : List UInt8) :
    (relay_step w scratch sink cb d).heap.read (w.heap.cells.length + 2) = some (.bytes d) := by
  have h := Heap.read_append_snd
    (w.heap.write scratch.base (.bytes (d ++ (w.heap.bytesAt scratch.base).drop d.length))).cells
    w.heap.frees (some (.write_req (w.heap.cells.length + 2))) (some (.bytes d))
  rw [Heap.length_write] at h
  exact h

theorem relay_step_bytes_live (w : World) (scratch : uv_buf_t) (sink : Handle) (cb : WriteCb)
    (d : List UInt8) (p : Nat) (s : List UInt8) (hp : w.heap.read p = some (.bytes s)) :
    ∃ s1, (relay_step w scratch sink cb d).heap.read p = some (.bytes s1) ∧
      s.length ≤ s1.length := by
  by_cases hne : p = scratch.base
  · subst hne
    refine ⟨_, relay_step_read_scratch w _ sink cb d s hp, ?_⟩
    simp only [List.length_append, List.length_drop]
    omega
  · exact ⟨s, by rw [relay_step_read_old w scratch sink cb d p (Heap.read_some_le hp).2 hne, hp],
      le_refl _⟩

theorem relay_step_req_live (w : World) (scratch : uv_buf_t) (sink : Handle) (cb : WriteCb)
    (d : List UInt8) (p q : Nat) (s : List UInt8)
    (hs : w.heap.read scratch.base = some (.bytes s))
    (hp : w.heap.read p = some (.write_req q)) :
    (relay_step w scratch sink cb d).heap.read p = some (.write_req q) := by
  have hne : p ≠ scratch.base := by
    intro e
    rw [e, hs] at hp
    cases hp
  rw [relay_step_read_old w scratch sink cb d p (Heap.read_some_le hp).2 hne, hp]

theorem relay_step_relaying (w : World) (scratch : uv_buf_t) (sink : Handle) (cb : WriteCb)
    (d : List UInt8) (hw : Relaying w)
    (hs : scratch = w.read_buffer ∨ scratch = w.write_buffer) :
    Relaying (relay_step w scratch sink cb d) := by
  obtain ⟨rs, hrs, hrl⟩ := hw.rb_live
  obtain ⟨ws, hws, hwl⟩ := hw.wb_live
  have hscr : ∃ s, w.heap.read scratch.base = some (.bytes s) := by
    rcases hs with h | h
    · exact ⟨rs, by rw [h]; exact hrs⟩
    · exact ⟨ws, by rw [h]; exact hws⟩
  obtain ⟨ss, hss⟩ := hscr
  have hq : (relay_step w scratch sink cb d).loop.write_queue = w.loop.write_queue ++
      [{ req := w.heap.cells.length + 1, handle := sink,
         buf := { base := w.heap.cells.length + 2, len := d.length }, cb := cb }] := rfl
  refine
    { running := hw.running
      conn := hw.conn
      stdin_reading := hw.stdin_reading
      tcp_reading := hw.tcp_reading
      rb_len := hw.rb_len
      wb_len := hw.wb_len
      rb_live := ?_
      wb_live := ?_
      scratch_ne := hw.scratch_ne
      req_live := ?_
      buf_live := ?_
      buf_sep := ?_
      req_nodup := ?_
      buf_nodup := ?_
      freed_dead := ?_ }
  · obtain ⟨s1, h1, h2⟩ := relay_step_bytes_live w scratch sink cb d _ rs hrs
    exact ⟨s1, h1, le_trans hrl h2⟩
  · obtain ⟨s1, h1, h2⟩ := relay_step_bytes_live w scratch sink cb d _ ws hws
    exact ⟨s1, h1, le_trans hwl h2⟩
  · intro pw hpw
    rw [hq, List.mem_append, List.mem_singleton] at hpw
    rcases hpw with h | h
    · exact relay_step_req_live w scratch sink cb d _ _ ss hss (hw.req_live pw h)
    · subst h
      exact relay_step_read_req w scratch sink cb d
  · intro pw hpw
    rw [hq, List.mem_append, List.mem_singleton] at hpw
    rcases hpw with h | h
    · obtain ⟨s, h1, h2⟩ := hw.buf_live pw h
      obtain ⟨s1, h3, h4⟩ := relay_step_bytes_live w scratch sink cb d _ s h1
      exact ⟨s1, h3, le_trans h2 h4⟩
    · subst h
      exact ⟨d, relay_step_read_buf w scratch sink cb d, le_refl _⟩
  · intro pw hpw
    rw [hq, List.mem_append, List.mem_singleton] at hpw
    rcases hpw with h | h
    · exact hw.buf_sep pw h
    · subst h
      have h1 := (Heap.read_some_le hrs).2
      have h2 := (Heap.read_some_le hws).2
      constructor
      · show w.heap.cells.length + 2 ≠ w.read_buffer.base
        omega
      · show w.heap.cells.length + 2 ≠ w.write_buffer.base
        omega
  · rw [hq, List.map_append, List.nodup_append]
    refine ⟨hw.req_nodup, List.nodup_singleton _, ?_⟩
    intro x hx hx1
    rw [List.map_singleton, List.mem_singleton] at hx1
    obtain ⟨pw, hpw, rfl⟩ := List.mem_map.mp hx
    have := (Heap.read_some_le (hw.req_live pw hpw)).2
    simp only at hx1
    omega
  · rw [hq, List.map_append, List.nodup_append]
    refine ⟨hw.buf_nodup, List.nodup_singleton _, ?_⟩
    intro x hx hx1
    rw [List.map_singleton, List.mem_singleton] at hx1
    obtain ⟨pw, hpw, rfl⟩ := List.mem_map.mp hx
    obtain ⟨s, h1, _⟩ := hw.buf_live pw hpw
    have := (Heap.read_some_le h1).2
    simp only at hx1
    omega
  · intro p hp
    obtain ⟨h1, h2⟩ := hw.freed_dead p hp
    have hne : p ≠ scratch.base := by
      intro e
      rw [e, hss] at h1
      cases h1
    refine ⟨by rw [relay_step_read_old w scratch sink cb d p h2 hne, h1], ?_⟩
    rw [relay_step_length]
    omega

/-! ## Sequences of read completions on one path -/

theorem Path.scratch_cases (P : Path) (w : World) :
    P.scratch w = w.read_buffer ∨ P.scratch w = w.write_buffer := by
  cases P
  · exact Or.inr rfl
  · exact Or.inl rfl

theorem Path.scratch_live (P : Path) (w : World) (hw : Relaying w) :
    ∃ s, w.heap.read (P.scratch w).base = some (.bytes s) ∧ BUFFER_LEN ≤ s.length := by
  cases P
  · obtain ⟨s, h1, h2⟩ := hw.wb_live
    exact ⟨s, h1, by rw [← hw.wb_len]; exact h2⟩
  · obtain ⟨s, h1, h2⟩ := hw.rb_live
    exact ⟨s, h1, by rw [← hw.rb_len]; exact h2⟩

theorem deliver_completion (P : Path) (w : World) (c : List UInt8 × ReadEnv) (hw : Relaying w)
    (hc : c.1 ≠ [] ∧ c.1.length ≤ BUFFER_LEN ∧ c.2.accepts) :
    deliver (P.completion c) w = (some (), relay_step w (P.scratch w) P.sink P.cb c.1) := by
  cases P
  · exact deliver_stdin_data w c.1 c.2 hw hc.1 hc.2.1 hc.2.2
  · exact deliver_tcp_data w c.1 c.2 hw hc.1 hc.2.1 hc.2.2

theorem payload_congr (h h1 : Heap) (pw : PendingWrite)
    (e : h1.read pw.buf.base = h.read pw.buf.base) : pw.payload h1 = pw.payload h := by
  simp [PendingWrite.payload, Heap.bytesAt, e]

theorem payload_of_read (h : Heap) (pw : PendingWrite) (s : List UInt8)
    (hr : h.read pw.buf.base = some (.bytes s)) : pw.payload h = s.take pw.buf.len := by
  simp [PendingWrite.payload, Heap.bytesAt, hr]

theorem relay_run (P : Path) (cs : List (List UInt8 × ReadEnv)) :
    ∀ w, Relaying w → (∀ c ∈ cs, c.1 ≠ [] ∧ c.1.length ≤ BUFFER_LEN ∧ c.2.accepts) →
    ∃ w1 new, (cs.map P.completion).forM deliver w = (some (), w1) ∧ Relaying w1 ∧
      w1.loop.write_queue = w.loop.write_queue ++ new ∧
      new.map (PendingWrite.payload w1.heap) = cs.map Prod.fst ∧
      (∀ pw ∈ new, pw.handle = P.sink ∧ pw.cb = P.cb) ∧
      (∀ p, p ≤ w.heap.cells.length → p ≠ (P.scratch w).base →
        w1.heap.read p = w.heap.read p) ∧
      w.heap.cells.length ≤ w1.heap.cells.length ∧
      w1.read_buffer = w.read_buffer ∧ w1.write_buffer = w.write_buffer ∧
      w1.heap.frees = w.heap.frees := by
  induction cs with
  | nil =>
    intro w hw _
    exact ⟨w, [], rfl, hw, by simp, rfl, by simp, fun _ _ _ => rfl, le_refl _, rfl, rfl, rfl⟩
  | cons c cs ih =>
    intro w hw hcs
    have hc := hcs c (List.mem_cons_self _ _)
    have hw1 := relay_step_relaying w (P.scratch w) P.sink P.cb c.1 hw (P.scratch_cases w)
    have hscr : P.scratch (relay_step w (P.scratch w) P.sink P.cb c.1) = P.scratch w := by
      cases P <;> rfl
    obtain ⟨w2, new, hrun, hw2, hq, hpay, hsink, hframe, hlen, hrb, hwb, hfr⟩ :=
      ih (relay_step w (P.scratch w) P.sink P.cb c.1) hw1
        (fun x hx => hcs x (List.mem_cons_of_mem _ hx))
    obtain ⟨ss, hss, _⟩ := P.scratch_live w hw
    have hsl := (Heap.read_some_le hss).2
    have hL := relay_step_length w (P.scratch w) P.sink P.cb c.1
    refine ⟨w2, (⟨w.heap.cells.length + 1, P.sink,
      ⟨w.heap.cells.length + 2, c.1.length⟩, P.cb⟩ : PendingWrite) :: new,
      ?_, hw2, ?_, ?_, ?_, ?_, ?_, ?_, ?_, ?_⟩
    · rw [List.map_cons, forM_cons_apply, deliver_completion P w c hw hc]
      exact hrun
    · rw [hq]
      simp [relay_step]
    · rw [List.map_cons, List.map_cons, hpay]
      congr 1
      have h1 : w2.heap.read (w.heap.cells.length + 2) = some (.bytes c.1) := by
        rw [hframe _ (by omega) (by rw [hscr]; omega)]
        exact relay_step_read_buf w (P.scratch w) P.sink P.cb c.1
      rw [payload_of_read _ _ c.1 h1]
      simp
    · intro pw hpw
      rcases List.mem_cons.mp hpw with h | h
      · subst h
        exact ⟨rfl, rfl⟩
      · exact hsink pw h
    · intro p hp hne
      rw [hframe p (by omega) (by rw [hscr]; exact hne)]
      exact relay_step_read_old w (P.scratch w) P.sink P.cb c.1 p hp hne
    · omega
    · rw [hrb]; rfl
    · rw [hwb]; rfl
    · rw [hfr]; rfl

theorem relay_run_old_payload (P : Path) (w w1 : World) (hw : Relaying w)
    (hframe : ∀ p, p ≤ w.heap.cells.length → p ≠ (P.scratch w).base →
      w1.heap.read p = w.heap.read p) :
    ∀ pw ∈ w.loop.write_queue, pw.payload w1.heap = pw.payload w.heap := by
  intro pw hpw
  obtain ⟨s, hs, _⟩ := hw.buf_live pw hpw
  have hne : pw.buf.base ≠ (P.scratch w).base := by
    rcases P.scratch_cases w with h | h
    · rw [h]; exact (hw.buf_sep pw hpw).1
    · rw [h]; exact (hw.buf_sep pw hpw).2
  exact payload_congr _ _ pw (hframe _ (Heap.read_some_le hs).2 hne)

theorem writes_to_run (P : Path) (w w1 : World) (new : List PendingWrite) (h : Handle)
    (hw : Relaying w)
    (hq : w1.loop.write_queue = w.loop.write_queue ++ new)
    (hframe : ∀ p, p ≤ w.heap.cells.length → p ≠ (P.scratch w).base →
      w1.heap.read p = w.heap.read p) :
    writes_to w1 h = writes_to w h ++
      (new.filter fun pw => pw.handle = h).map (PendingWrite.payload w1.heap) := by
  unfold writes_to
  rw [hq, List.filter_append, List.map_append]
  congr 1
  apply List.map_congr_left
  intro pw hpw
  exact relay_run_old_payload P w w1 hw hframe pw (List.mem_filter.mp hpw).1

/-! ## The connected program is a forwarding state -/

theorem connected_relaying : Relaying World.connected where
  running := rfl
  conn := rfl
  stdin_reading := rfl
  tcp_reading := rfl
  rb_len := rfl
  wb_len := rfl
  rb_live := ⟨List.replicate BUFFER_LEN 0, rfl, by simp [World.connected]⟩
  wb_live := ⟨List.replicate BUFFER_LEN 0, rfl, by simp [World.connected]⟩
  scratch_ne := by simp [World.connected]
  req_live := by simp [World.connected]
  buf_live := by simp [World.connected]
  buf_sep := by simp [World.connected]
  req_nodup := by simp [World.connected]
  buf_nodup := by simp [World.connected]
  freed_dead := by simp [World.connected]

/-! ## Path A and path B are byte-exact -/

/-- C1. Path A (stdin to socket) is byte-exact. From any forwarding state, a
finite sequence of stdin read completions that carry data (the bytes `c.1` of
each completion are what libuv stored at the start of the scratch buffer, and
their number is the `nread` handed to `on_stdin_read`), with the allocator and
`uv_write` accepting, keeps the process running and queues exactly one write
per completion, in completion order, each on the TCP connection; the payload
of the k-th new write is the bytes of the k-th completion, so the payloads
queued for the socket are the old ones followed by the bytes read, and the
same holds for their concatenation. -/
theorem stdin_to_socket_byte_exact (w : World) (cs : List (List UInt8 × ReadEnv))
    (hw : Relaying w)
    (hcs : ∀ c ∈ cs, c.1 ≠ [] ∧ c.1.length ≤ BUFFER_LEN ∧ c.2.accepts) :
    ∃ w1 new,
      (cs.map fun c => Event.stdin_read (.data c.1) c.2).forM deliver w = (some (), w1) ∧
      w1.status = .running ∧
      w1.loop.write_queue = w.loop.write_queue ++ new ∧
      new.length = cs.length ∧
      (∀ pw ∈ new, pw.handle = .tcp) ∧
      new.map (PendingWrite.payload w1.heap) = cs.map Prod.fst ∧
      writes_to w1 .tcp = writes_to w .tcp ++ cs.map Prod.fst ∧
      (writes_to w1 .tcp).flatten = (writes_to w .tcp).flatten ++ (cs.map Prod.fst).flatten := by
  obtain ⟨w1, new, hrun, hw1, hq, hpay, hsink, hframe, _, _, _, _⟩ :=
    relay_run .stdin_to_socket cs w hw hcs
  have hlen : new.length = cs.length := by
    have := congrArg List.length hpay
    simpa using this
  have hfil : (new.filter fun pw => pw.handle = Handle.tcp) = new :=
    List.filter_eq_self.mpr fun pw hpw => by simpa using (hsink pw hpw).1
  have hwr : writes_to w1 .tcp = writes_to w .tcp ++ cs.map Prod.fst := by
    rw [writes_to_run .stdin_to_socket w w1 new .tcp hw hq hframe, hfil, hpay]
  exact ⟨w1, new, hrun, hw1.running, hq, hlen, fun pw hpw => (hsink pw hpw).1, hpay, hwr,
    by rw [hwr, List.flatten_append]⟩

/-- Scenario 2 in the connected program: `"hello\n"` read from stdin is queued,
unchanged, as the only write to the socket. -/
theorem stdin_to_socket_byte_exact_witness :
    ∃ w1, [Event.stdin_read (.data hello) ReadEnv.ok].forM deliver World.connected =
        (some (), w1) ∧ writes_to w1 .tcp = [hello] := by
  obtain ⟨w1, new, hrun, _, _, _, _, _, hwr, _⟩ :=
    stdin_to_socket_byte_exact World.connected [(hello, ReadEnv.ok)] connected_relaying
      (by decide)
  exact ⟨w1, hrun, hwr⟩

/-- C2. Path B (socket to stdout) is byte-exact. From any forwarding state, a
finite sequence of socket read completions that carry data, with the allocator
and `uv_write` accepting, keeps the process running and queues exactly one
write per completion, in completion order, each on the stdout pipe and none on
the socket; the payload of the k-th new write is the bytes of the k-th
completion, so the payloads queued for stdout are the old ones followed by the
bytes read, and the same holds for their concatenation. -/
theorem socket_to_stdout_byte_exact (w : World) (cs : List (List UInt8 × ReadEnv))
    (hw : Relaying w)
    (hcs : ∀ c ∈ cs, c.1 ≠ [] ∧ c.1.length ≤ BUFFER_LEN ∧ c.2.accepts) :
    ∃ w1 new,
      (cs.map fun c => Event.tcp_read (.data c.1) c.2).forM deliver w = (some (), w1) ∧
      w1.status = .running ∧
      w1.loop.write_queue = w.loop.write_queue ++ new ∧
      new.length = cs.length ∧
      (∀ pw ∈ new, pw.handle = .stdout_pipe) ∧
      new.map (PendingWrite.payload w1.heap) = cs.map Prod.fst ∧
      writes_to w1 .stdout_pipe = writes_to w .stdout_pipe ++ cs.map Prod.fst ∧
      (writes_to w1 .stdout_pipe).flatten =
        (writes_to w .stdout_pipe).flatten ++ (cs.map Prod.fst).flatten ∧
      writes_to w1 .tcp = writes_to w .tcp := by
  obtain ⟨w1, new, hrun, hw1, hq, hpay, hsink, hframe, _, _, _, _⟩ :=
    relay_run .socket_to_stdout cs w hw hcs
  have hlen : new.length = cs.length := by
    have := congrArg List.length hpay
    simpa using this
  have hfil : (new.filter fun pw => pw.handle = Handle.stdout_pipe) = new :=
    List.filter_eq_self.mpr fun pw hpw => by simpa using (hsink pw hpw).1
  have hnone : (new.filter fun pw => pw.handle = Handle.tcp) = [] :=
    List.filter_eq_nil_iff.mpr fun pw hpw => by
      have h := (hsink pw hpw).1
      simp [h, Path.sink]
  have hwr : writes_to w1 .stdout_pipe = writes_to w .stdout_pipe ++ cs.map Prod.fst := by
    rw [writes_to_run .socket_to_stdout w w1 new .stdout_pipe hw hq hframe, hfil, hpay]
  have htcp : writes_to w1 .tcp = writes_to w .tcp := by
    rw [writes_to_run .socket_to_stdout w w1 new .tcp hw hq hframe, hnone]
    simp
  exact ⟨w1, new, hrun, hw1.running, hq, hlen, fun pw hpw => (hsink pw hpw).1, hpay, hwr,
    by rw [hwr, List.flatten_append], htcp⟩

/-- Scenario 3, the data part, in the connected program: `"world"` read from
the socket is queued, unchanged, as the only write to stdout, and nothing is
queued for the socket. -/
theorem socket_to_stdout_byte_exact_witness :
    ∃ w1, [Event.tcp_read (.data world) ReadEnv.ok].forM deliver World.connected =
        (some (), w1) ∧ writes_to w1 .stdout_pipe = [world] ∧ writes_to w1 .tcp = [] := by
  obtain ⟨w1, new, hrun, _, _, _, _, _, hwr, _, htcp⟩ :=
    socket_to_stdout_byte_exact World.connected [(world, ReadEnv.ok)] connected_relaying
      (by decide)
  exact ⟨w1, hrun, hwr, htcp⟩

/-! ## Reuse of the scratch buffers -/

/-- C3. Buffer reuse safety, on either path `P`. After `N` read completions
with data the `N` new writes have pairwise distinct payload buffers, each a
live allocation of its own and none of them the scratch buffer, which the
allocation callback still hands out unchanged; the payloads are the bytes of
the `N` reads although each later read overwrote the scratch buffer, and they
stay so when libuv overwrites the scratch buffer once more with any bytes
`junk` for the next read. -/
theorem buffer_reuse_safety (P : Path) (w : World) (cs : List (List UInt8 × ReadEnv))
    (junk : List UInt8) (hw : Relaying w)
    (hcs : ∀ c ∈ cs, c.1 ≠ [] ∧ c.1.length ≤ BUFFER_LEN ∧ c.2.accepts)
    (hj : junk.length ≤ BUFFER_LEN) :
    ∃ w1 new w2,
      (cs.map P.completion).forM deliver w = (some (), w1) ∧
      w1.loop.write_queue = w.loop.write_queue ++ new ∧
      new.length = cs.length ∧
      (new.map fun pw => pw.buf.base).Nodup ∧
      (∀ pw ∈ new, pw.buf.base ≠ w1.read_buffer.base ∧ pw.buf.base ≠ w1.write_buffer.base ∧
        ∃ s, w1.heap.read pw.buf.base = some (.bytes s)) ∧
      new.map (PendingWrite.payload w1.heap) = cs.map Prod.fst ∧
      P.scratch w1 = P.scratch w ∧
      uv_read_into (P.scratch w1) junk w1 = (some (), w2) ∧
      w2.loop.write_queue = w1.loop.write_queue ∧
      new.map (PendingWrite.payload w2.heap) = cs.map Prod.fst := by
  obtain ⟨w1, new, hrun, hw1, hq, hpay, hsink, hframe, _, hrb, hwb, _⟩ :=
    relay_run P cs w hw hcs
  obtain ⟨s, hs, hsl⟩ := P.scratch_live w1 hw1
  have hmem : ∀ pw ∈ new, pw ∈ w1.loop.write_queue := fun pw hpw => by
    rw [hq]; exact List.mem_append_right _ hpw
  have hnd : (new.map fun pw => pw.buf.base).Nodup := by
    have h := hw1.buf_nodup
    rw [hq, List.map_append, List.nodup_append] at h
    exact h.2.1
  have hscr : P.scratch w1 = P.scratch w := by
    cases P
    · exact hwb
    · exact hrb
  refine ⟨w1, new, _, hrun, hq, ?_, hnd, ?_, hpay, hscr,
    uv_read_into_ok w1 _ junk s hs (le_trans hj hsl), rfl, ?_⟩
  · have := congrArg List.length hpay
    simpa using this
  · intro pw hpw
    obtain ⟨s1, h1, _⟩ := hw1.buf_live pw (hmem pw hpw)
    exact ⟨(hw1.buf_sep pw (hmem pw hpw)).1, (hw1.buf_sep pw (hmem pw hpw)).2, s1, h1⟩
  · rw [← hpay]
    apply List.map_congr_left
    intro pw hpw
    apply payload_congr
    apply Heap.read_write_ne
    rcases P.scratch_cases w1 with h | h
    · rw [h]; exact (hw1.buf_sep pw (hmem pw hpw)).1
    · rw [h]; exact (hw1.buf_sep pw (hmem pw hpw)).2

/-- Two reads in a row on path A of the connected program, then an overwrite of
the scratch buffer with `"world"`: the two queued payloads are still the bytes
of the two reads. -/
theorem buffer_reuse_safety_witness :
    ∃ (w1 : World) (new : List PendingWrite) (w2 : World),
      [Event.stdin_read (.data hello) ReadEnv.ok, Event.stdin_read (.data world) ReadEnv.ok].forM
        deliver World.connected = (some (), w1) ∧
      uv_read_into (on_alloc_stdin w1) world w1 = (some (), w2) ∧
      new.map (PendingWrite.payload w2.heap) = [hello, world] := by
  obtain ⟨w1, new, w2, hrun, _, _, _, _, _, _, hover, _, hpay⟩ :=
    buffer_reuse_safety .stdin_to_socket World.connected
      [(hello, ReadEnv.ok), (world, ReadEnv.ok)] world connected_relaying
      (by decide) (by decide)
  exact ⟨w1, new, w2, hrun, hover, hpay⟩

/-! ## Read results that are not data -/

/-- C9. A read error that is not end-of-stream is ignored: with `nread < 0` and
`nread ≠ UV_EOF` both read callbacks return at once and leave the whole program
state as it was (no write, no allocation, no stop request, no exit). -/
theorem read_error_ignored (w : World) (e : ReadEnv) (nread : Int) (buf : uv_buf_t)
    (hneg : nread < 0) (hne : nread ≠ UV_EOF) :
    on_stdin_read e nread buf w = (some (), w) ∧ on_tcp_read e nread buf w = (some (), w) := by
  have h0 : ¬ 0 < nread := not_lt.mpr (le_of_lt hneg)
  constructor
  · simp [on_stdin_read, h0, hneg, hne]
  · simp [on_tcp_read, h0, hneg, hne]

/-- A connection reset (`-104`) reported to either read callback of the
connected program changes nothing. -/
theorem read_error_ignored_witness :
    on_stdin_read ReadEnv.ok (-104) (on_alloc_stdin World.connected) World.connected =
      (some (), World.connected) ∧
    on_tcp_read ReadEnv.ok (-104) (on_alloc_tcp World.connected) World.connected =
      (some (), World.connected) :=
  read_error_ignored World.connected ReadEnv.ok (-104) _ (by decide) (by decide)

/-- C4, as stated, fails: a zero-length completion handed to `on_stdin_read` in
the connected program does not request the loop to stop; the program stays
`RUNNING`. -/
theorem zero_length_read_does_not_stop :
    (on_stdin_read ReadEnv.ok 0 (on_alloc_stdin World.connected) World.connected).2.loop.stop_flag
      = false ∧
    phase (on_stdin_read ReadEnv.ok 0 (on_alloc_stdin World.connected) World.connected).2
      = .RUNNING := by
  constructor <;> rfl

/-- C4, amended. End-of-stream on the input stream stops the program: with
`nread = UV_EOF` the callback `on_stdin_read` does exactly `uv_stop`, which moves
a `RUNNING` program to `STOPPING`; a zero-length completion is ignored. -/
theorem stdin_eof_stops (w : World) (e : ReadEnv) (buf : uv_buf_t) (hrun : phase w = .RUNNING) :
    on_stdin_read e UV_EOF buf w =
      (some (), { w with loop := { w.loop with stop_flag := true } }) ∧
    phase (on_stdin_read e UV_EOF buf w).2 = .STOPPING ∧
    on_stdin_read e 0 buf w = (some (), w) := by
  have h1 : on_stdin_read e UV_EOF buf w =
      (some (), { w with loop := { w.loop with stop_flag := true } }) := by
    simp [on_stdin_read, UV_EOF, uv_stop]
  refine ⟨h1, ?_, by simp [on_stdin_read]⟩
  rw [h1]
  unfold phase at hrun ⊢
  simp only at hrun ⊢
  split_ifs at hrun ⊢
  simp_all

/-- End-of-stream on stdin in the connected program. -/
theorem stdin_eof_stops_witness :
    phase (on_stdin_read ReadEnv.ok UV_EOF (on_alloc_stdin World.connected) World.connected).2 =
      .STOPPING :=
  (stdin_eof_stops World.connected ReadEnv.ok _ (by rfl)).2.1

/-! ## Fail-fast -/

/-- C6. Fail-fast on hard errors: `check_uv` stops the process exactly when the
code is negative; it then appends the line `name: description` for that code to
the error stream and exits with that code, and for a code `≥ 0` it leaves the
state alone and execution goes on. The checked completion callbacks inherit
this for their status argument; in particular a failed resolution exits in
`on_getaddrinfo` with the loop and `connect_req` untouched, that is before
`uv_tcp_connect` is called. -/
theorem check_uv_fail_fast (code : Int) (w : World) (rc_connect : Int)
    (res : Option sockaddr_in) (e : ConnectEnv) (req : Nat)
    (uv_err_name uv_strerror : Int → String) (file : String) :
    check_uv code w =
      (if code < 0 then
        (none, { w with stderr := w.stderr ++ [.uv_error code], status := .exited code })
      else (some (), w)) ∧
    (Diag.uv_error code).render uv_err_name uv_strerror file =
      uv_err_name code ++ ": " ++ uv_strerror code ++ "\n" ∧
    on_getaddrinfo rc_connect code res w =
      (if code < 0 then
        (none, { w with stderr := w.stderr ++ [.uv_error code], status := .exited code })
      else on_getaddrinfo rc_connect 0 res w) ∧
    on_connect e code w =
      (if code < 0 then
        (none, { w with stderr := w.stderr ++ [.uv_error code], status := .exited code })
      else on_connect e 0 w) ∧
    on_tcp_write req code w =
      (if code < 0 then
        (none, { w with stderr := w.stderr ++ [.uv_error code], status := .exited code })
      else on_tcp_write req 0 w) ∧
    on_stdout_write req code w =
      (if code < 0 then
        (none, { w with stderr := w.stderr ++ [.uv_error code], status := .exited code })
      else on_stdout_write req 0 w) := by
  by_cases h : code < 0
  · simp only [h, if_true]
    refine ⟨check_uv_neg code h w, rfl, ?_, ?_, ?_, ?_⟩
    · simp only [on_getaddrinfo, bind_apply, check_uv_neg code h w]
    · simp only [on_connect, bind_apply, check_uv_neg code h w]
    · simp only [on_tcp_write, bind_apply, check_uv_neg code h w]
    · simp only [on_stdout_write, bind_apply, check_uv_neg code h w]
  · simp only [h, if_false]
    have h0 : (0 : Int) ≤ code := not_lt.mp h
    refine ⟨check_uv_nonneg code h0 w, rfl, ?_, ?_, ?_, ?_⟩
    · simp only [on_getaddrinfo, bind_apply, check_uv_nonneg code h0 w,
        check_uv_nonneg 0 (le_refl _) w]
    · simp only [on_connect, bind_apply, check_uv_nonneg code h0 w,
        check_uv_nonneg 0 (le_refl _) w]
    · simp only [on_tcp_write, bind_apply, check_uv_nonneg code h0 w,
        check_uv_nonneg 0 (le_refl _) w]
    · simp only [on_stdout_write, bind_apply, check_uv_nonneg code h0 w,
        check_uv_nonneg 0 (le_refl _) w]

/-! ## The connection message -/

theorem ntohs_htons (p : Nat) (hp : p < 65536) : ntohs (htons p) = p := by
  show p / 256 % 256 * 256 + p % 256 = p
  omega

theorem toString_natCast (p : Nat) : toString ((p : Nat) : Int) = toString p := rfl

theorem to_short_small (x : Int) (h0 : 0 ≤ x) (h1 : x < 32768) : to_short x = x := by
  unfold to_short
  simp only
  split_ifs <;> omega

theorem to_short_large (x : Int) (h0 : 32768 ≤ x) (h1 : x < 65536) : to_short x = x - 65536 := by
  unfold to_short
  simp only
  split_ifs <;> omega

theorem fmt_hd_small (x : Int) (h0 : 0 ≤ x) (h1 : x < 32768) : fmt_hd x = toString x := by
  unfold fmt_hd
  rw [to_short_small x h0 h1]

theorem fmt_hd_nat (p : Nat) (hp : p < 32768) : fmt_hd (p : Int) = toString p :=
  (fmt_hd_small (p : Int) (Int.natCast_nonneg p) (by omega)).trans (toString_natCast p)

theorem fmt_hd_large (x : Int) (h0 : 32768 ≤ x) (h1 : x < 65536) :
    fmt_hd x = toString (x - 65536) := by
  unfold fmt_hd
  rw [to_short_large x h0 h1]

theorem on_connect_eq (w : World) (e : ConnectEnv) (status : Int) (h : Handle)
    (hs : 0 ≤ status) (h1 : 0 ≤ e.rc_read_start_tcp) (h2 : 0 ≤ e.rc_read_start_stdin)
    (hc : w.connect_req_handle = some h) :
    on_connect e status w = (some (), { w with
      stdout := w.stdout ++ ["Connected to " ++ (uv_ip4_name w.addr).2 ++ " on port " ++
        fmt_hd (ntohs w.addr.sin_port) ++ "!\n"]
      loop := { w.loop with
        handles := fun k =>
          if k = .stdin_pipe then
            { (if k = h then { w.loop.handles k with active := true }
                else w.loop.handles k) with active := true }
          else if k = h then { w.loop.handles k with active := true }
          else w.loop.handles k } }) := by
  simp only [on_connect, bind_apply, check_uv_nonneg status hs, getWorld_apply, uv_ip4_name,
    check_uv_nonneg 0 (le_refl _), printf, modifyWorld_apply, hc, uv_read_start,
    not_lt.mpr h1, not_lt.mpr h2, if_false, setHandle, pure_apply, check_uv_nonneg _ h1,
    check_uv_nonneg _ h2]

theorem on_connect_ok (w : World) (e : ConnectEnv) (status : Int) (h : Handle)
    (hs : 0 ≤ status) (h1 : 0 ≤ e.rc_read_start_tcp) (h2 : 0 ≤ e.rc_read_start_stdin)
    (hc : w.connect_req_handle = some h) :
    ∃ w1, on_connect e status w = (some (), w1) ∧
      w1.stdout = w.stdout ++ ["Connected to " ++ (uv_ip4_name w.addr).2 ++ " on port " ++
        fmt_hd (ntohs w.addr.sin_port) ++ "!\n"] :=
  ⟨_, on_connect_eq w e status h hs h1 h2 hc, rfl⟩

/-- The port is printed as its decimal value as long as it fits a `short`. -/
theorem on_connect_prints_port (w : World) (e : ConnectEnv) (a : sockaddr_in) (p : Nat)
    (hp : p < 32768) (ha : a.sin_port = htons p)
    (h1 : 0 ≤ e.rc_read_start_tcp) (h2 : 0 ≤ e.rc_read_start_stdin) :
    ∃ w1, on_connect e 0 { w with addr := a, connect_req_handle := some .tcp } = (some (), w1) ∧
      w1.stdout = w.stdout ++ ["Connected to " ++ (uv_ip4_name a).2 ++ " on port " ++
        toString p ++ "!\n"] := by
  obtain ⟨w1, hw1, hout⟩ := on_connect_ok { w with addr := a, connect_req_handle := some .tcp }
    e 0 .tcp (le_refl _) h1 h2 rfl
  refine ⟨w1, hw1, ?_⟩
  have hport : fmt_hd (ntohs a.sin_port : Int) = toString p := by
    rw [ha, ntohs_htons p (by omega)]
    exact fmt_hd_nat p hp
  rw [hout]
  show w.stdout ++ ["Connected to " ++ (uv_ip4_name a).2 ++ " on port " ++
    fmt_hd (ntohs a.sin_port : Int) ++ "!\n"] = _
  rw [hport]

/-- A port of `32768` or more is printed `65536` too low, as a negative number. -/
theorem on_connect_prints_high_port (w : World) (e : ConnectEnv) (a : sockaddr_in) (p : Nat)
    (hp1 : 32768 ≤ p) (hp2 : p < 65536) (ha : a.sin_port = htons p)
    (h1 : 0 ≤ e.rc_read_start_tcp) (h2 : 0 ≤ e.rc_read_start_stdin) :
    ∃ w1, on_connect e 0 { w with addr := a, connect_req_handle := some .tcp } = (some (), w1) ∧
      w1.stdout = w.stdout ++ ["Connected to " ++ (uv_ip4_name a).2 ++ " on port " ++
        toString ((p : Int) - 65536) ++ "!\n"] := by
  obtain ⟨w1, hw1, hout⟩ := on_connect_ok { w with addr := a, connect_req_handle := some .tcp }
    e 0 .tcp (le_refl _) h1 h2 rfl
  refine ⟨w1, hw1, ?_⟩
  have hport : fmt_hd (ntohs a.sin_port : Int) = toString ((p : Int) - 65536) := by
    rw [ha, ntohs_htons p hp2]
    exact fmt_hd_large p (by omega) (by omega)
  rw [hout]
  show w.stdout ++ ["Connected to " ++ (uv_ip4_name a).2 ++ " on port " ++
    fmt_hd (ntohs a.sin_port : Int) ++ "!\n"] = _
  rw [hport]

/-- The resolver answers the request of `main` with the port of `PORT`. -/
theorem addrinfo_port (ip : UInt8 × UInt8 × UInt8 × UInt8) :
    addrinfo PORT ip = { sin_port := htons 12345, sin_addr := ip } := by
  have h : service_port PORT = 12345 := by decide
  simp only [addrinfo, h]

/-- Whatever address the resolver finds for `IP`, the port `on_getaddrinfo`
stores in `addr` is `12345`, the service `main` asked for. -/
theorem resolved_port (w : World) (status rc : Int) (ip : UInt8 × UInt8 × UInt8 × UInt8)
    (hp : w.loop.getaddrinfo_pending = true) (hsvc : w.loop.getaddrinfo_service = PORT)
    (hs : 0 ≤ status) :
    (deliver (.getaddrinfo_done status (some ip) rc) w).2.addr =
      { sin_port := htons 12345, sin_addr := ip } := by
  simp only [deliver, bind_apply, getWorld_apply, hp, if_true, modifyWorld_apply, on_getaddrinfo,
    check_uv_nonneg status hs, Option.map, hsvc, addrinfo_port, uv_tcp_connect]
  by_cases hrc : rc < 0
  · simp only [hrc, if_true, pure_apply, check_uv, bind_apply, fprintf_stderr,
      modifyWorld_apply, exit]
  · simp only [hrc, if_false, bind_apply, modifyWorld_apply, pure_apply,
      check_uv_nonneg rc (not_lt.mp hrc)]

theorem free_ok (w : World) (p : Nat) (b : Block) (hp : w.heap.read p = some b) :
    free p w = (some (), { w with heap := w.heap.release p }) := by
  have h0 : p ≠ 0 := (Heap.read_some_le hp).1
  simp [free, h0, hp]

theorem get_req_data_ok (w : World) (req d : Nat) (hr : w.heap.read req = some (.write_req d)) :
    get_req_data req w = (some d, w) := by
  simp [get_req_data, hr]

theorem on_tcp_write_ok (w : World) (req base : Nat) (status : Int) (s : List UInt8)
    (hst : 0 ≤ status) (hreq : w.heap.read req = some (.write_req base))
    (hbase : w.heap.read base = some (.bytes s)) :
    on_tcp_write req status w =
      (some (), { w with heap := (w.heap.release base).release req }) := by
  have hr0 : req ≠ 0 := (Heap.read_some_le hreq).1
  have hb0 : base ≠ 0 := (Heap.read_some_le hbase).1
  have hne : req ≠ base := by
    intro e
    rw [e, hbase] at hreq
    cases hreq
  have hreq1 : (w.heap.release base).read req = some (.write_req base) := by
    rw [Heap.read_release_ne _ _ _ hne, hreq]
  simp only [on_tcp_write, bind_apply, check_uv_nonneg status hst, hr0, ne_eq, not_false_eq_true,
    if_true, get_req_data_ok w req base hreq, hb0, free_ok w base _ hbase]
  rw [free_ok { w with heap := w.heap.release base } req _ hreq1]

theorem on_stdout_write_ok (w : World) (req base : Nat) (status : Int) (s : List UInt8)
    (hst : 0 ≤ status) (hreq : w.heap.read req = some (.write_req base))
    (hbase : w.heap.read base = some (.bytes s)) :
    on_stdout_write req status w =
      (some (), { w with heap := (w.heap.release base).release req }) := by
  have hr0 : req ≠ 0 := (Heap.read_some_le hreq).1
  have hb0 : base ≠ 0 := (Heap.read_some_le hbase).1
  have hne : req ≠ base := by
    intro e
    rw [e, hbase] at hreq
    cases hreq
  have hreq1 : (w.heap.release base).read req = some (.write_req base) := by
    rw [Heap.read_release_ne _ _ _ hne, hreq]
  simp only [on_stdout_write, bind_apply, check_uv_nonneg status hst, hr0, ne_eq,
    not_false_eq_true, if_true, get_req_data_ok w req base hreq, hb0, free_ok w base _ hbase]
  rw [free_ok { w with heap := w.heap.release base } req _ hreq1]

theorem write_cb_ok (cb : WriteCb) (w : World) (req base : Nat) (status : Int) (s : List UInt8)
    (hst : 0 ≤ status) (hreq : w.heap.read req = some (.write_req base))
    (hbase : w.heap.read base = some (.bytes s)) :
    cb.call req status w = (some (), { w with heap := (w.heap.release base).release req }) := by
  cases cb
  · exact on_tcp_write_ok w req base status s hst hreq hbase
  · exact on_stdout_write_ok w req base status s hst hreq hbase

theorem write_cb_neg (cb : WriteCb) (w : World) (req : Nat) (status : Int) (hst : status < 0) :
    cb.call req status w =
      (none, { w with stderr := w.stderr ++ [.uv_error status], status := .exited status }) := by
  cases cb
  · simp only [WriteCb.call, on_tcp_write, bind_apply, check_uv_neg status hst]
  · simp only [WriteCb.call, on_stdout_write, bind_apply, check_uv_neg status hst]

theorem dequeue_none (req : Nat) (q : List PendingWrite) (h : ∀ x ∈ q, x.req ≠ req) :
    dequeue req q = none := by
  induction q with
  | nil => rfl
  | cons x xs ih =>
    have hx : x.req ≠ req := h x (List.mem_cons_self _ _)
    simp [dequeue, hx, ih fun y hy => h y (List.mem_cons_of_mem _ hy)]

theorem dequeue_of_mem (q : List PendingWrite) (pw : PendingWrite)
    (hnd : (q.map fun x => x.req).Nodup) (hmem : pw ∈ q) :
    dequeue pw.req q = some (pw, q.erase pw) := by
  induction q with
  | nil => cases hmem
  | cons x xs ih =>
    rw [List.map_cons, List.nodup_cons] at hnd
    by_cases hx : x = pw
    · subst hx
      simp [dequeue]
    · have hin : pw ∈ xs := by
        rcases List.mem_cons.mp hmem with h | h
        · exact absurd h.symm hx
        · exact h
      have hreq : x.req ≠ pw.req := by
        intro e
        exact hnd.1 (by rw [e]; exact List.mem_map_of_mem _ hin)
      simp [dequeue, hreq, ih hnd.2 hin, List.erase_cons, hx]

theorem complete_read (w : World) (pw : PendingWrite) (p : Nat)
    (h1 : p ≠ pw.buf.base) (h2 : p ≠ pw.req) :
    (complete w pw).heap.read p = w.heap.read p := by
  show ((w.heap.release pw.buf.base).release pw.req).read p = _
  rw [Heap.read_release_ne _ _ _ h2, Heap.read_release_ne _ _ _ h1]

theorem read_ne_of_types {h : Heap} {p q d : Nat} {s : List UInt8}
    (hp : h.read p = some (.write_req d)) (hq : h.read q = some (.bytes s)) : p ≠ q := by
  intro e
  rw [e, hq] at hp
  cases hp

theorem complete_frees (w : World) (pw : PendingWrite) (h1 : pw.buf.base ≠ 0) (h2 : pw.req ≠ 0) :
    (complete w pw).heap.frees = w.heap.frees ++ [pw.buf.base, pw.req] := by
  show ((w.heap.release pw.buf.base).release pw.req).frees = _
  rw [Heap.frees_release _ _ h2, Heap.frees_release _ _ h1]
  simp

theorem complete_read_freed (w : World) (pw : PendingWrite) (hne : pw.buf.base ≠ pw.req) :
    (complete w pw).heap.read pw.buf.base = none ∧ (complete w pw).heap.read pw.req = none := by
  constructor
  · show ((w.heap.release pw.buf.base).release pw.req).read pw.buf.base = none
    rw [Heap.read_release_ne _ _ _ hne, Heap.read_release_same]
  · exact Heap.read_release_same _ _

theorem complete_length (w : World) (pw : PendingWrite) :
    (complete w pw).heap.cells.length = w.heap.cells.length := by
  show ((w.heap.release pw.buf.base).release pw.req).cells.length = _
  rw [Heap.length_release, Heap.length_release]

theorem complete_relaying (w : World) (pw : PendingWrite) (hw : Relaying w)
    (hmem : pw ∈ w.loop.write_queue) : Relaying (complete w pw) := by
  obtain ⟨rs, hrs, hrl⟩ := hw.rb_live
  obtain ⟨ws, hws, hwl⟩ := hw.wb_live
  have hreq := hw.req_live pw hmem
  obtain ⟨ps, hps, _⟩ := hw.buf_live pw hmem
  have hqnd : w.loop.write_queue.Nodup := List.Nodup.of_map _ hw.req_nodup
  have hin : ∀ x ∈ w.loop.write_queue.erase pw, x ∈ w.loop.write_queue ∧ x ≠ pw :=
    fun x hx => ⟨List.mem_of_mem_erase hx, ((List.Nodup.mem_erase_iff hqnd).mp hx).1⟩
  have hne_req : ∀ x ∈ w.loop.write_queue.erase pw, x.req ≠ pw.req := fun x hx e =>
    (hin x hx).2 (List.inj_on_of_nodup_map hw.req_nodup (hin x hx).1 hmem e)
  have hne_buf : ∀ x ∈ w.loop.write_queue.erase pw, x.buf.base ≠ pw.buf.base := fun x hx e =>
    (hin x hx).2 (List.inj_on_of_nodup_map hw.buf_nodup (hin x hx).1 hmem e)
  refine
    { running := hw.running
      conn := hw.conn
      stdin_reading := hw.stdin_reading
      tcp_reading := hw.tcp_reading
      rb_len := hw.rb_len
      wb_len := hw.wb_len
      rb_live := ?_
      wb_live := ?_
      scratch_ne := hw.scratch_ne
      req_live := ?_
      buf_live := ?_
      buf_sep := ?_
      req_nodup := ?_
      buf_nodup := ?_
      freed_dead := ?_ }
  · refine ⟨rs, ?_, hrl⟩
    show (complete w pw).heap.read w.read_buffer.base = _
    rw [complete_read w pw _ (hw.buf_sep pw hmem).1.symm (read_ne_of_types hreq hrs).symm]
    exact hrs
  · refine ⟨ws, ?_, hwl⟩
    show (complete w pw).heap.read w.write_buffer.base = _
    rw [complete_read w pw _ (hw.buf_sep pw hmem).2.symm (read_ne_of_types hreq hws).symm]
    exact hws
  · intro x hx
    have hx1 := hw.req_live x (hin x hx).1
    rw [complete_read w pw _ (read_ne_of_types hx1 hps) (hne_req x hx)]
    exact hx1
  · intro x hx
    obtain ⟨s, hs1, hs2⟩ := hw.buf_live x (hin x hx).1
    refine ⟨s, ?_, hs2⟩
    rw [complete_read w pw _ (hne_buf x hx) (read_ne_of_types hreq hs1).symm]
    exact hs1
  · intro x hx
    exact hw.buf_sep x (hin x hx).1
  · exact List.Nodup.sublist ((List.erase_sublist pw _).map _) hw.req_nodup
  · exact List.Nodup.sublist ((List.erase_sublist pw _).map _) hw.buf_nodup
  · intro p hp
    rw [complete_frees w pw (Heap.read_some_le hps).1 (Heap.read_some_le hreq).1] at hp
    rw [complete_length]
    rcases List.mem_append.mp hp with h | h
    · obtain ⟨h1, h2⟩ := hw.freed_dead p h
      have n1 : p ≠ pw.buf.base := fun e => by rw [e, hps] at h1; cases h1
      have n2 : p ≠ pw.req := fun e => by rw [e, hreq] at h1; cases h1
      exact ⟨by rw [complete_read w pw p n1 n2, h1], h2⟩
    · rcases List.mem_cons.mp h with h | h
      · subst h
        refine ⟨?_, (Heap.read_some_le hps).2⟩
        show ((w.heap.release pw.buf.base).release pw.req).read pw.buf.base = none
        rw [Heap.read_release_ne _ _ _ (read_ne_of_types hreq hps).symm,
          Heap.read_release_same]
      · rw [List.mem_singleton] at h
        subst h
        exact ⟨Heap.read_release_same _ _, (Heap.read_some_le hreq).2⟩

theorem deliver_write_done (w : World) (pw : PendingWrite) (status : Int) (hw : Relaying w)
    (hmem : pw ∈ w.loop.write_queue) :
    deliver (.write_done pw.req status) w =
      (if status < 0 then
        (none, { w with
          loop := { w.loop with write_queue := w.loop.write_queue.erase pw }
          stderr := w.stderr ++ [.uv_error status]
          status := .exited status })
      else (some (), complete w pw)) := by
  have hreq := hw.req_live pw hmem
  obtain ⟨ps, hps, _⟩ := hw.buf_live pw hmem
  simp only [deliver, bind_apply, getWorld_apply, dequeue_of_mem _ pw hw.req_nodup hmem,
    modifyWorld_apply]
  by_cases hst : status < 0
  · rw [if_pos hst, write_cb_neg pw.cb _ pw.req status hst]
  · rw [if_neg hst, write_cb_ok pw.cb
      { w with loop := { w.loop with write_queue := w.loop.write_queue.erase pw } }
      pw.req pw.buf.base status ps (not_lt.mp hst) hreq hps]
    rfl

theorem deliver_write_done_unknown (w : World) (req : Nat) (status : Int)
    (h : ∀ x ∈ w.loop.write_queue, x.req ≠ req) :
    deliver (.write_done req status) w = (some (), w) := by
  simp only [deliver, bind_apply, getWorld_apply, dequeue_none req _ h, pure_apply]

theorem forwarding_step (w : World) (ev : Event) (pw : PendingWrite) (s : List UInt8)
    (hw : Relaying w) (hmem : pw ∈ w.loop.write_queue)
    (hs : w.heap.read pw.buf.base = some (.bytes s))
    (hev : ev.forwarding pw.req = true) :
    ∃ w1, deliver ev w = (some (), w1) ∧ Relaying w1 ∧ pw ∈ w1.loop.write_queue ∧
      w1.heap.read pw.buf.base = some (.bytes s) := by
  have hle := (Heap.read_some_le hs).2
  cases ev with
  | getaddrinfo_done status res rc => simp [Event.forwarding] at hev
  | connect_done status e => simp [Event.forwarding] at hev
  | signal h signum => simp [Event.forwarding] at hev
  | stdin_read r e =>
    cases r with
    | eof => simp [Event.forwarding] at hev
    | error errno => simp [Event.forwarding] at hev
    | data d =>
      simp only [Event.forwarding, decide_eq_true_eq] at hev
      refine ⟨_, deliver_stdin_data w d e hw hev.1 hev.2.1 hev.2.2,
        relay_step_relaying w _ _ _ d hw (Or.inr rfl), ?_, ?_⟩
      · exact List.mem_append_left _ hmem
      · rw [relay_step_read_old w _ _ _ d _ hle (hw.buf_sep pw hmem).2, hs]
  | tcp_read r e =>
    cases r with
    | eof => simp [Event.forwarding] at hev
    | error errno => simp [Event.forwarding] at hev
    | data d =>
      simp only [Event.forwarding, decide_eq_true_eq] at hev
      refine ⟨_, deliver_tcp_data w d e hw hev.1 hev.2.1 hev.2.2,
        relay_step_relaying w _ _ _ d hw (Or.inl rfl), ?_, ?_⟩
      · exact List.mem_append_left _ hmem
      · rw [relay_step_read_old w _ _ _ d _ hle (hw.buf_sep pw hmem).1, hs]
  | write_taken req =>
    by_cases hany : (w.loop.write_queue.any fun x => decide (x.req = req)) = true
    · refine ⟨{ w with loop := { w.loop with taken := req :: w.loop.taken } }, ?_, ?_, hmem, hs⟩
      · simp only [deliver, bind_apply, getWorld_apply, hany, if_true, modifyWorld_apply]
      · exact ⟨hw.running, hw.conn, hw.stdin_reading, hw.tcp_reading, hw.rb_len, hw.wb_len,
          hw.rb_live, hw.wb_live, hw.scratch_ne, hw.req_live, hw.buf_live, hw.buf_sep,
          hw.req_nodup, hw.buf_nodup, hw.freed_dead⟩
    · refine ⟨w, ?_, hw, hmem, hs⟩
      simp only [deliver, bind_apply, getWorld_apply, hany, pure_apply]
      rfl
  | write_done req status =>
    simp only [Event.forwarding, decide_eq_true_eq] at hev
    by_cases hex : ∃ x ∈ w.loop.write_queue, x.req = req
    · obtain ⟨x, hx, hxr⟩ := hex
      subst hxr
      have hne : pw ≠ x := fun e => hev.1 (by rw [e])
      have hd := deliver_write_done w x status hw hx
      rw [if_neg (not_lt.mpr hev.2)] at hd
      refine ⟨_, hd, complete_relaying w x hw hx, (List.mem_erase_of_ne hne).mpr hmem, ?_⟩
      obtain ⟨xs, hxs, _⟩ := hw.buf_live x hx
      rw [complete_read w x _
        (fun e => hne (List.inj_on_of_nodup_map hw.buf_nodup hmem hx e))
        (read_ne_of_types (hw.req_live x hx) hs).symm]
      exact hs
    · push_neg at hex
      exact ⟨w, deliver_write_done_unknown w req status hex, hw, hmem, hs⟩

theorem forwarding_run (pw : PendingWrite) (s : List UInt8) (evs : List Event) :
    ∀ w, Relaying w → pw ∈ w.loop.write_queue → w.heap.read pw.buf.base = some (.bytes s) →
    (∀ ev ∈ evs, ev.forwarding pw.req = true) →
    ∃ w1, evs.forM deliver w = (some (), w1) ∧ Relaying w1 ∧ pw ∈ w1.loop.write_queue ∧
      w1.heap.read pw.buf.base = some (.bytes s) := by
  induction evs with
  | nil => intro w hw hmem hs _; exact ⟨w, rfl, hw, hmem, hs⟩
  | cons ev evs ih =>
    intro w hw hmem hs hevs
    obtain ⟨w1, h1, hw1, hmem1, hs1⟩ :=
      forwarding_step w ev pw s hw hmem hs (hevs ev (List.mem_cons_self _ _))
    obtain ⟨w2, h2, hw2, hmem2, hs2⟩ :=
      ih w1 hw1 hmem1 hs1 (fun x hx => hevs x (List.mem_cons_of_mem _ hx))
    refine ⟨w2, ?_, hw2, hmem2, hs2⟩
    rw [forM_cons_apply, h1]
    exact h2

theorem live_not_freed (w : World) (hw : Relaying w) (p : Nat) (b : Block)
    (hp : w.heap.read p = some b) : p ∉ w.heap.frees := by
  intro h
  rw [(hw.freed_dead p h).1] at hp
  cases hp

/-! ## Ownership of the payload buffers -/

/-- C10, as stated, fails for a failed completion: in the connected program
with one write in flight, the completion callback `on_tcp_write` called with
`UV_ECANCELED` exits through `check_uv` and releases neither the payload buffer
nor the request object. -/
theorem failed_write_frees_nothing :
    (on_tcp_write 3 UV_ECANCELED World.one_write).2.status = .exited UV_ECANCELED ∧
    (on_tcp_write 3 UV_ECANCELED World.one_write).2.heap.frees = [] ∧
    (on_tcp_write 3 UV_ECANCELED World.one_write).2.heap.read 3 = some (.write_req 4) ∧
    (on_tcp_write 3 UV_ECANCELED World.one_write).2.heap.read 4 = some (.bytes hello) := by
  refine ⟨?_, ?_, ?_, ?_⟩ <;> decide!

/-- C10, amended. Each in-flight write owns one request object and one payload
buffer. The write `pw` created by a read completion on either path has both
live, with `req->data` the payload buffer; they stay live, unchanged and absent
from the `free` log through any further forwarding (reads with data and
successful completions of other writes); when its own completion arrives with
a status `≥ 0` the callback releases the buffer and then the request, each
exactly once, and with a negative status the callback exits through `check_uv`
with the heap untouched. -/
theorem write_owns_its_buffer (P : Path) (w : World) (c : List UInt8 × ReadEnv)
    (evs : List Event) (status : Int) (hw : Relaying w)
    (hc : c.1 ≠ [] ∧ c.1.length ≤ BUFFER_LEN ∧ c.2.accepts)
    (hevs : ∀ ev ∈ evs, ev.forwarding (w.heap.cells.length + 1) = true) :
    ∃ w1 pw w2,
      deliver (P.completion c) w = (some (), w1) ∧
      w1.loop.write_queue = w.loop.write_queue ++ [pw] ∧
      pw.req = w.heap.cells.length + 1 ∧
      w1.heap.read pw.req = some (.write_req pw.buf.base) ∧
      w1.heap.read pw.buf.base = some (.bytes c.1) ∧
      evs.forM deliver w1 = (some (), w2) ∧
      pw ∈ w2.loop.write_queue ∧
      w2.heap.read pw.req = some (.write_req pw.buf.base) ∧
      w2.heap.read pw.buf.base = some (.bytes c.1) ∧
      pw.req ∉ w2.heap.frees ∧ pw.buf.base ∉ w2.heap.frees ∧
      deliver (.write_done pw.req status) w2 =
        (if status < 0 then
          (none, { w2 with
            loop := { w2.loop with write_queue := w2.loop.write_queue.erase pw }
            stderr := w2.stderr ++ [.uv_error status]
            status := .exited status })
        else (some (), complete w2 pw)) ∧
      (complete w2 pw).heap.frees = w2.heap.frees ++ [pw.buf.base, pw.req] ∧
      (complete w2 pw).heap.frees.count pw.buf.base = 1 ∧
      (complete w2 pw).heap.frees.count pw.req = 1 ∧
      (complete w2 pw).heap.read pw.buf.base = none ∧
      (complete w2 pw).heap.read pw.req = none := by
  have hw1 := relay_step_relaying w (P.scratch w) P.sink P.cb c.1 hw (P.scratch_cases w)
  have hb1 := relay_step_read_buf w (P.scratch w) P.sink P.cb c.1
  have hr1 := relay_step_read_req w (P.scratch w) P.sink P.cb c.1
  obtain ⟨w2, hrun, hw2, hmem2, hb2⟩ :=
    forwarding_run ⟨w.heap.cells.length + 1, P.sink, ⟨w.heap.cells.length + 2, c.1.length⟩, P.cb⟩
      c.1 evs (relay_step w (P.scratch w) P.sink P.cb c.1) hw1
      (List.mem_append_right _ (List.mem_singleton_self _)) hb1 hevs
  have hr2 := hw2.req_live _ hmem2
  have hnf1 := live_not_freed w2 hw2 _ _ hr2
  have hnf2 := live_not_freed w2 hw2 _ _ hb2
  have hfr := complete_frees w2
    ⟨w.heap.cells.length + 1, P.sink, ⟨w.heap.cells.length + 2, c.1.length⟩, P.cb⟩
    (Nat.succ_ne_zero _) (Nat.succ_ne_zero _)
  refine ⟨_, _, w2, deliver_completion P w c hw hc, rfl, rfl, hr1, hb1, hrun, hmem2, hr2, hb2,
    hnf1, hnf2, deliver_write_done w2 _ status hw2 hmem2, hfr, ?_, ?_, ?_, ?_⟩
  · rw [hfr, List.count_append, List.count_eq_zero_of_not_mem hnf2]
    simp
  · rw [hfr, List.count_append, List.count_eq_zero_of_not_mem hnf1]
    simp
  · exact (complete_read_freed w2 _ (read_ne_of_types hr2 hb2).symm).1
  · exact (complete_read_freed w2 _ (read_ne_of_types hr2 hb2).symm).2

/-- The connected program reads `"hello\n"` from stdin, then `"world"` from the
socket, and the first write completes with status `0`: both of its blocks are
released exactly once. -/
theorem write_owns_its_buffer_witness :
    ∃ w1 pw w2,
      deliver (.stdin_read (.data hello) ReadEnv.ok) World.connected = (some (), w1) ∧
      [Event.tcp_read (.data world) ReadEnv.ok].forM deliver w1 = (some (), w2) ∧
      pw.req = 3 ∧ w2.heap.read pw.buf.base = some (.bytes hello) ∧
      deliver (.write_done pw.req 0) w2 = (some (), complete w2 pw) ∧
      (complete w2 pw).heap.frees.count pw.buf.base = 1 ∧
      (complete w2 pw).heap.frees.count pw.req = 1 ∧
      (complete w2 pw).heap.read pw.buf.base = none ∧
      (complete w2 pw).heap.read pw.req = none := by
  obtain ⟨w1, pw, w2, h1, _, hreq, _, _, hrun, _, _, hb2, _, _, hdone, _, hc1, hc2, hn1, hn2⟩ :=
    write_owns_its_buffer .stdin_to_socket World.connected (hello, ReadEnv.ok)
      [Event.tcp_read (.data world) ReadEnv.ok] 0 connected_relaying (by decide) (by decide)
  exact ⟨w1, pw, w2, h1, hrun, hreq, hb2, by simpa using hdone, hc1, hc2, hn1, hn2⟩

/-! ## Closing the handles -/

theorem uv_close_ok (w : World) (h : Handle) (h1 : (w.loop.handles h).closing = false)
    (h2 : (w.loop.handles h).closed = false) :
    uv_close h w = (some (), { w with loop := { w.loop with
      handles := fun k => if k = h then { w.loop.handles k with closing := true, active := false }
        else w.loop.handles k
      closing_queue := h :: w.loop.closing_queue } }) := by
  simp [uv_close, h1, h2, setHandle]

theorem uv_walk_ok (w : World)
    (hreg : ∀ k, (w.loop.handles k).init = true ∧ (w.loop.handles k).closing = false ∧
      (w.loop.handles k).closed = false) :
    uv_walk w = (some (), { w with loop := { w.loop with
      handles := fun k => { w.loop.handles k with closing := true, active := false }
      closing_queue := [.stdout_pipe, .stdin_pipe, .tcp, .sigint, .sigterm] ++
        w.loop.closing_queue } }) := by
  have e1 := hreg .sigterm
  have e2 := hreg .sigint
  have e3 := hreg .tcp
  have e4 := hreg .stdin_pipe
  have e5 := hreg .stdout_pipe
  simp only [uv_walk, Handle.all, forM_cons_apply, forM_nil_apply, bind_apply, getWorld_apply,
    on_walk, e1, e2, e3, e4, e5, Bool.not_false, Bool.and_self, if_true]
  rw [uv_close_ok w .sigterm e1.2.1 e1.2.2]
  simp only [reduceCtorEq, if_false, e2, Bool.not_false, Bool.and_self, if_true]
  rw [uv_close_ok _ .sigint (by simp [e2]) (by simp [e2])]
  simp only [reduceCtorEq, if_false, e3, Bool.not_false, Bool.and_self, if_true]
  rw [uv_close_ok _ .tcp (by simp [e3]) (by simp [e3])]
  simp only [reduceCtorEq, if_false, e4, Bool.not_false, Bool.and_self, if_true]
  rw [uv_close_ok _ .stdin_pipe (by simp [e4]) (by simp [e4])]
  simp only [reduceCtorEq, if_false, e5, Bool.not_false, Bool.and_self, if_true]
  rw [uv_close_ok _ .stdout_pipe (by simp [e5]) (by simp [e5])]
  simp only [Prod.mk.injEq, true_and]
  congr 2
  funext k
  cases k <;> simp

/-! ## The first `uv_run` ends on a trigger -/

theorem uv_run_stopped (its : List (List Event)) (w : World) (hs : w.loop.stop_flag = true) :
    uv_run its w = (some (if loop_alive w then 1 else 0),
      { w with loop := { w.loop with stop_flag := false } }) := by
  cases its <;> simp [uv_run, hs]

theorem idle_alive (w : World) (hw : Idle w) : loop_alive w = true := by
  have h1 := hw.relaying.stdin_reading
  have h2 := hw.stdin_ref
  have : 0 < active_handles w := by
    unfold active_handles
    apply List.length_pos_of_mem (a := Handle.stdin_pipe)
    simp [Handle.all, h1, h2]
  simp [loop_alive, this]

theorem world_eta (w : World) (hs : w.loop.stop_flag = false) (hq : w.loop.closing_queue = []) :
    { w with loop := { w.loop with stop_flag := false, closing_queue := [] } } = w := by
  cases w with
  | mk st so se hp lp ad cr rb wb =>
    cases lp
    simp only at hs hq
    subst hs hq
    rfl

theorem deliver_trigger (w : World) (t : Trigger) (hw : Idle w) :
    deliver t.event w = (some (), { w with loop := { w.loop with stop_flag := true } }) := by
  obtain ⟨rs, hrs, _⟩ := hw.relaying.rb_live
  obtain ⟨ws, hws, _⟩ := hw.relaying.wb_live
  have hrb : w.read_buffer.base ≠ 0 := (Heap.read_some_le hrs).1
  have hwb : w.write_buffer.base ≠ 0 := (Heap.read_some_le hws).1
  have hrl : w.read_buffer.len ≠ 0 := by rw [hw.relaying.rb_len]; decide
  have hwl : w.write_buffer.len ≠ 0 := by rw [hw.relaying.wb_len]; decide
  cases t
  · simp [Trigger.event, deliver, hw.sigint_started, on_signal, uv_stop]
  · simp [Trigger.event, deliver, hw.sigterm_started, on_signal, uv_stop]
  · simp [Trigger.event, deliver, deliver_read, hw.relaying.stdin_reading, on_alloc_stdin, hwb,
      hwl, on_stdin_read, UV_EOF, uv_stop]
  · simp [Trigger.event, deliver, deliver_read, hw.relaying.tcp_reading, on_alloc_tcp, hrb,
      hrl, on_tcp_read, UV_EOF, uv_stop]

theorem uv_run_trigger (w : World) (t : Trigger) (rest : List (List Event)) (hw : Idle w) :
    uv_run ([t.event] :: rest) w = (some 1, w) := by
  have halive := idle_alive w hw
  have halive2 : loop_alive { w with loop := { w.loop with stop_flag := true, closing_queue := [] } }
      = true := by
    rw [← halive]
    simp [loop_alive, active_handles, hw.no_closing]
  simp only [uv_run, bind_apply, getWorld_apply, halive, hw.not_stopped, Bool.not_false,
    Bool.and_self, if_true, forM_cons_apply, forM_nil_apply, deliver_trigger w t hw,
    run_closing_handles, modifyWorld_apply, hw.no_closing]
  rw [uv_run_stopped rest _ rfl]
  simp only [halive2, if_true]
  congr 1
  exact world_eta w hw.not_stopped hw.no_closing
/-! ## The stop and close sequence of `main` -/

theorem uv_signal_stop_ok (w : World) (rc : Int) (h : Handle) (hrc : 0 ≤ rc) :
    uv_signal_stop rc h w = (some rc, { w with loop := { w.loop with
      handles := fun k => if k = h then { w.loop.handles k with active := false }
        else w.loop.handles k } }) := by
  simp [uv_signal_stop, not_lt.mpr hrc, setHandle]

theorem uv_read_stop_ok (w : World) (rc : Int) (h : Handle) (hrc : 0 ≤ rc) :
    uv_read_stop rc (some h) w = (some rc, { w with loop := { w.loop with
      handles := fun k => if k = h then { w.loop.handles k with active := false }
        else w.loop.handles k } }) := by
  simp [uv_read_stop, not_lt.mpr hrc, setHandle]

theorem deliver_quiet (ev : Event) (w : World) (hact : ∀ k, (w.loop.handles k).active = false)
    (hq : w.loop.write_queue = []) (hg : w.loop.getaddrinfo_pending = false)
    (hc : w.loop.connect_pending = false) : deliver ev w = (some (), w) := by
  cases ev <;> simp [deliver, deliver_read, hact, hq, hg, hc, dequeue]

theorem forM_deliver_quiet (evs : List Event) (w : World)
    (hact : ∀ k, (w.loop.handles k).active = false)
    (hq : w.loop.write_queue = []) (hg : w.loop.getaddrinfo_pending = false)
    (hc : w.loop.connect_pending = false) : evs.forM deliver w = (some (), w) := by
  induction evs with
  | nil => rfl
  | cons ev evs ih => rw [forM_cons_apply, deliver_quiet ev w hact hq hg hc]; exact ih

theorem active_handles_zero (w : World) (hact : ∀ k, (w.loop.handles k).active = false) :
    active_handles w = 0 := by
  simp [active_handles, Handle.all, hact]

theorem on_close_quiet (w : World) (h : Handle)
    (hact : ∀ k, (w.loop.handles k).active = false) :
    on_close h w = (some (), { w with loop := { w.loop with stop_flag := true } }) := by
  simp [on_close, active_handles_zero w hact, uv_stop]

theorem finish_close_quiet (w : World) (h : Handle)
    (hact : ∀ k, (w.loop.handles k).active = false)
    (hq : w.loop.write_queue = []) (hc : w.loop.connect_pending = false) :
    finish_close h w = (some (), { w with loop := { w.loop with
      stop_flag := true
      handles := fun k => if k = h then { w.loop.handles k with closed := true }
        else w.loop.handles k } }) := by
  simp only [finish_close, bind_apply, getWorld_apply, hc, Bool.false_eq_true, and_false,
    if_false, pure_apply, modifyWorld_apply, hq, List.filter_nil, forM_nil_apply, setHandle]
  rw [on_close_quiet _ h (by intro k; by_cases hk : k = h <;> simp [hk, hact])]

theorem uv_run_closing (w : World) (evs : List Event) (rest : List (List Event))
    (hs : w.loop.stop_flag = false)
    (hcq : w.loop.closing_queue = [.stdout_pipe, .stdin_pipe, .tcp, .sigint, .sigterm])
    (hact : ∀ k, (w.loop.handles k).active = false)
    (hq : w.loop.write_queue = []) (hg : w.loop.getaddrinfo_pending = false)
    (hc : w.loop.connect_pending = false) :
    uv_run (evs :: rest) w = (some 0, { w with loop := { w.loop with
      stop_flag := false
      closing_queue := []
      handles := fun k => { w.loop.handles k with closed := true } } }) := by
  have halive : loop_alive w = true := by simp [loop_alive, hcq]
  simp only [uv_run, bind_apply, getWorld_apply, halive, hs, Bool.not_false, Bool.and_self,
    if_true, forM_deliver_quiet evs w hact hq hg hc, run_closing_handles, modifyWorld_apply, hcq,
    forM_cons_apply, forM_nil_apply]
  rw [finish_close_quiet _ .stdout_pipe (by simpa using hact) (by simpa using hq)
    (by simpa using hc)]
  simp only []
  rw [finish_close_quiet _ .stdin_pipe
    (by intro k; cases k <;> simp [hact]) (by simpa using hq) (by simpa using hc)]
  simp only []
  rw [finish_close_quiet _ .tcp
    (by intro k; cases k <;> simp [hact]) (by simpa using hq) (by simpa using hc)]
  simp only []
  rw [finish_close_quiet _ .sigint
    (by intro k; cases k <;> simp [hact]) (by simpa using hq) (by simpa using hc)]
  simp only []
  rw [finish_close_quiet _ .sigterm
    (by intro k; cases k <;> simp [hact]) (by simpa using hq) (by simpa using hc)]
  simp only []
  rw [uv_run_stopped rest _ rfl]
  have hdead : ∀ v : World, (∀ k, (v.loop.handles k).active = false) →
      v.loop.write_queue = [] → v.loop.getaddrinfo_pending = false →
      v.loop.connect_pending = false → v.loop.closing_queue = [] → loop_alive v = false := by
    intro v h1 h2 h3 h4 h5
    simp [loop_alive, active_handles_zero v h1, h2, h3, h4, h5]
  rw [hdead _ (by intro k; cases k <;> simp [hact]) (by simpa using hq) (by simpa using hg)
    (by simpa using hc) rfl]
  simp only [Bool.false_eq_true, if_false, Prod.mk.injEq, true_and]
  congr 2
  funext k
  cases k <;> simp
theorem uv_loop_close_ok (w : World) (hg : w.loop.getaddrinfo_pending = false)
    (hc : w.loop.connect_pending = false) (hq : w.loop.write_queue = [])
    (hcl : ∀ k, (w.loop.handles k).closed = true) : uv_loop_close w = (some 0, w) := by
  simp [uv_loop_close, hg, hc, hq, Handle.all, hcl]

theorem main_teardown_idle (env : MainEnv) (w : World) (evs : List Event)
    (rest : List (List Event)) (hw : Idle w)
    (h1 : 0 ≤ env.rc_signal_stop_sigterm) (h2 : 0 ≤ env.rc_signal_stop_sigint)
    (h3 : 0 ≤ env.rc_read_stop_tcp) (h4 : 0 ≤ env.rc_read_stop_stdin)
    (hrun2 : env.run2 = evs :: rest) :
    ∃ w2, main_teardown env w = (some 0, w2) ∧ w2.status = .running ∧
      (∀ k, (w2.loop.handles k).closed = true) ∧
      w2.stdout = w.stdout ∧ w2.stderr = w.stderr ∧
      w2.heap.frees = w.heap.frees ++ [w.read_buffer.base, w.write_buffer.base] := by
  obtain ⟨rs, hrs, _⟩ := hw.relaying.rb_live
  obtain ⟨ws, hws, _⟩ := hw.relaying.wb_live
  have hrb : w.read_buffer.base ≠ 0 := (Heap.read_some_le hrs).1
  have hwb : w.write_buffer.base ≠ 0 := (Heap.read_some_le hws).1
  have hws1 : (w.heap.release w.read_buffer.base).read w.write_buffer.base =
      some (.bytes ws) := by
    rw [Heap.read_release_ne _ _ _ (Ne.symm hw.relaying.scratch_ne), hws]
  have hreg := hw.registered
  simp only [main_teardown, bind_apply, uv_signal_stop_ok w _ .sigterm h1, check_uv_nonneg _ h1]
  rw [uv_signal_stop_ok _ _ .sigint h2]
  simp only [check_uv_nonneg _ h2, bind_apply, getWorld_apply, hw.relaying.conn]
  rw [uv_read_stop_ok _ _ .tcp h3]
  simp only [check_uv_nonneg _ h3, bind_apply, getWorld_apply]
  rw [uv_read_stop_ok _ _ .stdin_pipe h4]
  simp only [check_uv_nonneg _ h4, hrb, hwb, ne_eq, not_false_eq_true, if_true, bind_apply,
    getWorld_apply]
  rw [free_ok _ _ (.bytes rs)]
  swap
  · exact hrs
  simp only [bind_apply, getWorld_apply, hwb, ne_eq, not_false_eq_true, if_true]
  rw [free_ok _ _ (.bytes ws)]
  swap
  · exact hws1
  simp only [bind_apply, getWorld_apply]
  rw [uv_walk_ok]
  swap
  · intro k
    cases k <;> simp [hreg]
  simp only [hrun2, bind_apply, getWorld_apply]
  rw [uv_run_closing]
  rotate_left
  · exact hw.not_stopped
  · simp [hw.no_closing]
  · intro k
    rfl
  · exact hw.no_write
  · exact hw.no_getaddrinfo
  · exact hw.no_connect
  simp only [check_uv_nonneg 0 (le_refl _), bind_apply, getWorld_apply]
  rw [uv_loop_close_ok]
  rotate_left
  · exact hw.no_getaddrinfo
  · exact hw.no_connect
  · exact hw.no_write
  · intro k
    rfl
  simp only [check_uv_nonneg 0 (le_refl _), pure_apply, bind_apply]
  refine ⟨_, rfl, hw.relaying.running, fun k => rfl, rfl, rfl, ?_⟩
  show ((w.heap.release w.read_buffer.base).release w.write_buffer.base).frees = _
  rw [Heap.frees_release _ _ hwb, Heap.frees_release _ _ hrb]
  simp

/-! ## Shutdown -/

theorem connected_idle : Idle World.connected where
  relaying := connected_relaying
  no_write := rfl
  no_getaddrinfo := rfl
  no_connect := rfl
  no_closing := rfl
  not_stopped := rfl
  registered := by intro h; cases h <;> simp [World.connected]
  sigterm_started := rfl
  sigint_started := rfl
  stdin_ref := rfl

theorem stop_eta (w : World) (hs : w.loop.stop_flag = true) :
    { w with loop := { w.loop with stop_flag := true } } = w := by
  cases w with
  | mk st so se hp lp ad cr rb wb =>
    cases lp
    simp only at hs
    subst hs
    rfl

theorem phase_terminated (w : World) (h : ∀ k, (w.loop.handles k).closed = true) :
    phase w = .TERMINATED := by
  simp [phase, Handle.all, h]

/-- C8. Shutdown idempotence. In a state where the loop has already been asked
to stop (`STOPPING`: every handle registered, none closing), `on_signal` returns
the same state, and so does the delivery of a further signal; the walk of
`main` then closes each of the five handles exactly once (the closing list has
no duplicate and libuv's assertion against a second `uv_close` is not hit),
after which a signal changes nothing; and in any state, once `uv_signal_stop`
has succeeded for a watcher, a signal for it changes nothing. -/
theorem shutdown_idempotent (w : World) (h : Handle) (signum rc : Int)
    (hstop : w.loop.stop_flag = true)
    (hreg : ∀ k, (w.loop.handles k).init = true ∧ (w.loop.handles k).closing = false ∧
      (w.loop.handles k).closed = false)
    (hq : w.loop.closing_queue = [])
    (hrc : 0 ≤ rc) :
    phase w = .STOPPING ∧
    on_signal h signum w = (some (), w) ∧
    deliver (.signal h signum) w = (some (), w) ∧
    (∃ w1, uv_walk w = (some (), w1) ∧ w1.status = w.status ∧
      w1.loop.closing_queue = [.stdout_pipe, .stdin_pipe, .tcp, .sigint, .sigterm] ∧
      w1.loop.closing_queue.Nodup ∧
      (∀ k, (w1.loop.handles k).closing = true) ∧
      deliver (.signal h signum) w1 = (some (), w1)) ∧
    (∀ w0 : World, ∃ w2, uv_signal_stop rc h w0 = (some rc, w2) ∧
      deliver (.signal h signum) w2 = (some (), w2)) := by
  have hsig : on_signal h signum w = (some (), w) := by
    simp only [on_signal, uv_stop, modifyWorld_apply, stop_eta w hstop]
  refine ⟨?_, hsig, ?_, ?_, ?_⟩
  · simp [phase, Handle.all, hreg, hstop]
  · simp only [deliver, bind_apply, getWorld_apply]
    split_ifs
    · exact hsig
    · rfl
  · refine ⟨_, uv_walk_ok w hreg, rfl, by simp [hq], by simp [hq], fun k => rfl, ?_⟩
    simp [deliver]
  · intro w0
    refine ⟨_, uv_signal_stop_ok w0 rc h hrc, ?_⟩
    simp [deliver]

/-- A second `SIGINT`, then `SIGTERM`, in the connected program that has
already handled one `SIGINT`. -/
theorem shutdown_idempotent_witness :
    on_signal .sigint SIGINT World.stopping = (some (), World.stopping) ∧
    deliver (.signal .sigterm SIGTERM) World.stopping = (some (), World.stopping) :=
  ⟨(shutdown_idempotent World.stopping .sigint SIGINT 0 rfl
      (by intro k; cases k <;> simp [World.stopping, World.connected, on_signal, uv_stop])
      rfl (le_refl _)).2.1,
   (shutdown_idempotent World.stopping .sigterm SIGTERM 0 rfl
      (by intro k; cases k <;> simp [World.stopping, World.connected, on_signal, uv_stop])
      rfl (le_refl _)).2.2.1⟩

/-- Graceful shutdown from the connected, idle program exits `0`: in any
forwarding state with no write in flight and no pending request, each of the
four triggers stops the first `uv_run`, and when the four checked stop calls
succeed and the second `uv_run` gets to iterate, the rest of `main` runs to its
end, closes all five handles, writes no diagnostic and returns `0`, whichever
trigger it was. -/
theorem graceful_shutdown_exits_zero (env : MainEnv) (w : World) (t : Trigger)
    (rest1 : List (List Event)) (evs : List Event) (rest2 : List (List Event))
    (hw : Idle w)
    (h1 : 0 ≤ env.rc_signal_stop_sigterm) (h2 : 0 ≤ env.rc_signal_stop_sigint)
    (h3 : 0 ≤ env.rc_read_stop_tcp) (h4 : 0 ≤ env.rc_read_stop_stdin)
    (hrun2 : env.run2 = evs :: rest2) :
    ∃ w2,
      main_from_run env ([t.event] :: rest1) w = (some 0, w2) ∧
      (finish (main_from_run env ([t.event] :: rest1) w)).status = .exited 0 ∧
      phase w2 = .TERMINATED ∧
      w2.stderr = w.stderr := by
  obtain ⟨w2, hrun, _, hcl, _, herr, _⟩ := main_teardown_idle env w evs rest2 hw h1 h2 h3 h4 hrun2
  have hall : main_from_run env ([t.event] :: rest1) w = (some 0, w2) := by
    simp only [main_from_run, bind_apply, uv_run_trigger w t rest1 hw,
      check_uv_nonneg 1 (by decide)]
    exact hrun
  refine ⟨w2, hall, ?_, phase_terminated w2 hcl, herr⟩
  rw [hall]
  rfl

/-- End-of-stream on the socket in the connected, idle program. -/
theorem graceful_shutdown_exits_zero_witness :
    (finish (main_from_run (MainEnv.ok [] [[]]) [[Trigger.socket_eof.event]]
      World.connected)).status = .exited 0 := by
  obtain ⟨w2, _, h, _⟩ := graceful_shutdown_exits_zero (MainEnv.ok [] [[]]) World.connected
    .socket_eof [] [] [] connected_idle (le_refl _) (le_refl _) (le_refl _) (le_refl _) rfl
  exact h

/-- C5. A shutdown trigger that arrives before the connection is established
does not end in exit status `0`.  `SIGINT` between resolution and connection:
the close phase cancels the connect request, `on_connect` gets `UV_ECANCELED`
and its `check_uv(status)` prints the diagnostic and exits with that code.
`SIGINT` before the resolution has completed: `connect_req.handle` is still
`NULL` when `main` passes it to `uv_read_stop`, and the process crashes. -/
theorem shutdown_before_connect_fails :
    (program (MainEnv.ok [[.resolved], [.signal .sigint SIGINT]] [[]])).status =
      .exited UV_ECANCELED ∧
    (program (MainEnv.ok [[.resolved], [.signal .sigint SIGINT]] [[]])).stderr =
      [.uv_error UV_ECANCELED] ∧
    (program (MainEnv.ok [[.signal .sigint SIGINT]] [[]])).status = .crashed := by
  refine ⟨?_, ?_, ?_⟩ <;> decide!

/-! ## The connected program is reached by `main` -/

theorem main_setup_ok (run1 run2 : List (List Event)) :
    main_setup (MainEnv.ok run1 run2) World.initial = (some (), { World.initial with
      heap := { cells := [some (.bytes (List.replicate BUFFER_LEN 0)),
        some (.bytes (List.replicate BUFFER_LEN 0))], frees := [] }
      read_buffer := { base := 1, len := BUFFER_LEN }
      write_buffer := { base := 2, len := BUFFER_LEN }
      loop := { uv_loop_t.fresh with
        getaddrinfo_pending := true
        getaddrinfo_service := PORT
        handles := fun h =>
          match h with
          | .sigterm => { init := true, active := true, ref := false, closing := false, closed := false }
          | .sigint => { init := true, active := true, ref := false, closing := false, closed := false }
          | .tcp => { init := true, active := false, ref := true, closing := false, closed := false }
          | .stdin_pipe => { init := true, active := false, ref := true, closing := false, closed := false }
          | .stdout_pipe => { init := true, active := false, ref := true, closing := false, closed := false } } }) := by
  simp only [main_setup, MainEnv.ok, bind_apply, uv_loop_init, uv_handle_init, uv_signal_start,
    uv_unref, malloc, uv_getaddrinfo, uv_pipe_open, setHandle, lt_self_iff_false, if_false,
    pure_apply, modifyWorld_apply, check_uv_nonneg 0 (le_refl _), if_true, Heap.alloc,
    World.initial, uv_buf_init, uv_loop_t.fresh, List.nil_append, List.length_nil,
    List.length_singleton, List.singleton_append, List.length_cons, zero_add,
    Prod.mk.injEq, true_and, World.mk.injEq, uv_loop_t.mk.injEq, and_true, Nat.reduceAdd]
  funext h
  cases h <;> simp

theorem localhost_eq :
    ({ sin_port := htons 12345, sin_addr := (127, 0, 0, 1) } : sockaddr_in) = localhost := rfl

theorem localhost_line :
    "Connected to " ++ (uv_ip4_name localhost).2 ++ " on port " ++
      fmt_hd (ntohs localhost.sin_port) ++ "!\n" = "Connected to 127.0.0.1 on port 12345!\n" := by
  decide!

theorem connected_reached :
    main (MainEnv.ok connect_events []) World.initial = (none, World.connected) := by
  have halive : ∀ v : World, v.loop.getaddrinfo_pending = true ∨ v.loop.connect_pending = true →
      loop_alive v = true := by
    intro v hv
    rcases hv with h | h <;> simp [loop_alive, h]
  have hreading : ∀ v : World, (v.loop.handles .stdin_pipe).active = true →
      (v.loop.handles .stdin_pipe).ref = true → loop_alive v = true := by
    intro v h1 h2
    have : 0 < active_handles v := by
      unfold active_handles
      apply List.length_pos_of_mem (a := Handle.stdin_pipe)
      simp [Handle.all, h1, h2]
    simp [loop_alive, this]
  simp only [main, bind_apply, main_setup_ok connect_events [], main_from_run]
  simp only [MainEnv.ok, connect_events, Event.resolved, uv_run, bind_apply, getWorld_apply]
  rw [halive _ (Or.inl rfl)]
  simp only [World.initial, uv_loop_t.fresh, Bool.not_false, Bool.and_self, if_true,
    forM_cons_apply, forM_nil_apply, deliver, bind_apply, getWorld_apply, modifyWorld_apply,
    on_getaddrinfo, check_uv_nonneg 0 (le_refl _), uv_tcp_connect, lt_self_iff_false, if_false,
    pure_apply, run_closing_handles, Option.map, addrinfo_port, localhost_eq]
  rw [halive]
  swap
  · exact Or.inr rfl
  simp only [Bool.not_false, Bool.and_self, Bool.and_true, if_true, bind_apply,
    getWorld_apply, modifyWorld_apply, forM_nil_apply, forM_cons_apply, deliver]
  rw [on_connect_eq _ _ 0 .tcp (le_refl _) (le_refl _) (le_refl _) rfl]
  simp only [List.nil_append, localhost_line, bind_apply, getWorld_apply, modifyWorld_apply,
    forM_nil_apply]
  rw [hreading]
  rotate_left
  · rfl
  · rfl
  simp only [Bool.not_false, Bool.and_self, if_true, wait, Prod.mk.injEq, true_and]
  unfold World.connected
  simp only [World.mk.injEq, uv_loop_t.mk.injEq, and_true, true_and]
  funext h
  cases h <;> simp

theorem program_connected : program (MainEnv.ok connect_events []) = World.connected := by
  simp only [program, connected_reached, finish]

/-- Whatever IPv4 address the resolver finds for `IP`, the run in which the
connection then succeeds prints that address and the port of `PORT`. -/
theorem program_connect_message (a b c d : UInt8) :
    (program (MainEnv.ok
      [[.getaddrinfo_done 0 (some (a, b, c, d)) 0],
       [.connect_done 0 { rc_read_start_tcp := 0, rc_read_start_stdin := 0 }]] [])).stdout =
      ["Connected to " ++ (toString a.toNat ++ "." ++ toString b.toNat ++ "." ++
        toString c.toNat ++ "." ++ toString d.toNat) ++ " on port " ++ toString 12345 ++
        "!\n"] := by
  have hreading : ∀ v : World, (v.loop.handles .stdin_pipe).active = true →
      (v.loop.handles .stdin_pipe).ref = true → loop_alive v = true := by
    intro v h1 h2
    have : 0 < active_handles v := by
      unfold active_handles
      apply List.length_pos_of_mem (a := Handle.stdin_pipe)
      simp [Handle.all, h1, h2]
    simp [loop_alive, this]
  have halive : ∀ v : World, v.loop.getaddrinfo_pending = true ∨ v.loop.connect_pending = true →
      loop_alive v = true := by
    intro v hv
    rcases hv with h | h <;> simp [loop_alive, h]
  have hfmt : fmt_hd (ntohs (htons 12345) : Int) = toString 12345 := by decide!
  simp only [program, main, bind_apply, main_setup_ok, main_from_run]
  simp only [MainEnv.ok, uv_run, bind_apply, getWorld_apply]
  rw [halive _ (Or.inl rfl)]
  simp only [World.initial, uv_loop_t.fresh, Bool.not_false, Bool.and_self, if_true,
    forM_cons_apply, forM_nil_apply, deliver, bind_apply, getWorld_apply, modifyWorld_apply,
    on_getaddrinfo, check_uv_nonneg 0 (le_refl _), uv_tcp_connect, lt_self_iff_false, if_false,
    pure_apply, run_closing_handles, Option.map, addrinfo_port]
  rw [halive]
  swap
  · exact Or.inr rfl
  simp only [Bool.not_false, Bool.and_self, Bool.and_true, if_true, bind_apply,
    getWorld_apply, modifyWorld_apply, forM_nil_apply, forM_cons_apply, deliver]
  rw [on_connect_eq _ _ 0 .tcp (le_refl _) (le_refl _) (le_refl _) rfl]
  simp only [List.nil_append, bind_apply, getWorld_apply, modifyWorld_apply,
    forM_nil_apply, uv_ip4_name, hfmt]
  rw [hreading]
  rotate_left
  · rfl
  · rfl
  rfl

/-! ## Whole runs -/

/-- From the connected, idle program each trigger ends the run with status `0`. -/
theorem program_graceful (t : Trigger) :
    (program (MainEnv.ok (connect_events ++ [[t.event]]) [[]])).status = .exited 0 := by
  cases t <;> decide!

/-- Scenario 3: the peer sends `"world"`, the write to stdout completes, the
peer closes; the run ends with status `0` and both blocks of the write have
been released. -/
theorem program_scenario_3 :
    (program (MainEnv.ok (connect_events ++
      [[.tcp_read (.data world) ReadEnv.ok], [.write_done 3 0], [.tcp_read .eof ReadEnv.ok]])
      [[]])).status = .exited 0 ∧
    (program (MainEnv.ok (connect_events ++
      [[.tcp_read (.data world) ReadEnv.ok], [.write_done 3 0], [.tcp_read .eof ReadEnv.ok]])
      [[]])).heap.frees = [4, 3, 1, 2] := by
  constructor <;> decide!

/-- Scenario 5: `SIGINT` arrives in the loop iteration in which `"hello\n"` was
read from stdin and the kernel accepted the write to the socket.  Closing the
socket runs `on_tcp_write` with status `0`, which releases both blocks of the
write, and the run ends with status `0`. -/
theorem program_scenario_5 :
    (program (MainEnv.ok (connect_events ++
      [[.stdin_read (.data hello) ReadEnv.ok, .write_taken 3, .signal .sigint SIGINT]])
      [[]])).status = .exited 0 ∧
    (program (MainEnv.ok (connect_events ++
      [[.stdin_read (.data hello) ReadEnv.ok, .write_taken 3, .signal .sigint SIGINT]])
      [[]])).heap.frees = [1, 2, 4, 3] := by
  constructor <;> decide!

/-- Scenario 4: a failed resolution ends the run in `on_getaddrinfo` with the
code of the failure, one diagnostic line and no connection request. -/
theorem program_scenario_4 :
    (program (MainEnv.ok [[.getaddrinfo_done (-3008) none 0]] [[]])).status = .exited (-3008) ∧
    (program (MainEnv.ok [[.getaddrinfo_done (-3008) none 0]] [[]])).stderr =
      [.uv_error (-3008)] ∧
    (program (MainEnv.ok [[.getaddrinfo_done (-3008) none 0]] [[]])).connect_req_handle =
      none := by
  refine ⟨?_, ?_, ?_⟩ <;> decide!

/-- A forwarding state with one write in flight is idle again once that write
has completed successfully. -/
theorem idle_after_write (P : Path) (w : World) (c : List UInt8 × ReadEnv) (hw : Idle w)
    (hc : c.1 ≠ [] ∧ c.1.length ≤ BUFFER_LEN ∧ c.2.accepts) :
    ∃ w1 w2, deliver (P.completion c) w = (some (), w1) ∧
      deliver (.write_done (w.heap.cells.length + 1) 0) w1 = (some (), w2) ∧ Idle w2 := by
  have hw1 := relay_step_relaying w (P.scratch w) P.sink P.cb c.1 hw.relaying
    (P.scratch_cases w)
  have hmem : (⟨w.heap.cells.length + 1, P.sink, ⟨w.heap.cells.length + 2, c.1.length⟩, P.cb⟩ :
      PendingWrite) ∈ (relay_step w (P.scratch w) P.sink P.cb c.1).loop.write_queue :=
    List.mem_append_right _ (List.mem_singleton_self _)
  have hd := deliver_write_done _ _ 0 hw1 hmem
  rw [if_neg (by decide)] at hd
  refine ⟨_, _, deliver_completion P w c hw.relaying hc, hd,
    { relaying := complete_relaying _ _ hw1 hmem
      no_write := ?_
      no_getaddrinfo := hw.no_getaddrinfo
      no_connect := hw.no_connect
      no_closing := hw.no_closing
      not_stopped := hw.not_stopped
      registered := hw.registered
      sigterm_started := hw.sigterm_started
      sigint_started := hw.sigint_started
      stdin_ref := hw.stdin_ref }⟩
  show (w.loop.write_queue ++ [_]).erase _ = []
  rw [hw.no_write]
  simp

end Relay
